import Mathlib

/-!
# Snake: movement, collision, food placement and the Playing loop of `game.c`

A shallow embedding of `src/game.c`.

* C `int` values (coordinates, screen sizes, key codes) are mathematical integers: the
  program adds only -1, 0 or 1 to coordinates that lie on a screen. The `unsigned int`
  score is a natural number below 2^32 and `score++` is taken modulo 2^32.
* An array argument `(points, snakeLen)` is a list whose length is `snakeLen`.
* The curses screen is an outside input: every `getmaxyx` query receives its own
  `Screen`, every `getch` its own key, and `rand()` draws from a list of values.
* A function returns `none` where the C program has no defined result in this model:
  an access to `points[0]` of an empty array, a remainder by zero, a read through a
  pointer that designates no object, or a supply of `rand()` values that ends before
  the sampling loop does.
* Drawing (`clear`, `mvaddch`, `refresh`, `attron`, ...) changes no program variable and
  is left out.
-/

namespace Snake

/-! ## Geometry -/

/-- `struct Point` (lines 33-36): a row `y` and a column `x`. -/
structure Point where
  y : Int
  x : Int
deriving DecidableEq, Repr

/-- `SNAKE_LEN` (line 29). -/
def SNAKE_LEN : Nat := 20

/-- `MAX_REASON_LEN` (line 31). -/
def MAX_REASON_LEN : Nat := 100

/-- `arePointsEqual` (lines 38-40). -/
def arePointsEqual (x y : Point) : Bool :=
  x.x == y.x && x.y == y.y

/-- The two values `getmaxyx(stdscr, maxY, maxX)` stores at one query. -/
structure Screen where
  maxY : Int
  maxX : Int
deriving DecidableEq, Repr

/-- `isInBounds` (lines 66-74); `scr` is what its `getmaxyx` query reports. -/
def isInBounds (scr : Screen) (y x : Int) : Bool :=
  if y ≥ 0 ∧ y < scr.maxY ∧ x ≥ 0 ∧ x < scr.maxX then true else false

/-- `isOverlapped` (lines 76-84): scan from index 0, return at the first equal point. -/
def isOverlapped (p : Point) : List Point → Bool
  | [] => false
  | q :: rest => if arePointsEqual p q then true else isOverlapped p rest

/-! ## The reason buffer -/

/-- `stringCopy(dest, size, source)` (lines 20, 25): the text `dest` holds afterwards,
at most `size` characters of `source`. -/
def stringCopy (size : Nat) (source : String) : String :=
  ⟨source.data.take size⟩

/-- Text of line 124. -/
def outOfBoundsText : String := "Your snake went out of bounds!"

/-- Text of line 130. -/
def ateItselfText : String := "Your snake ate itself!"

/-- Text of line 299. -/
def quitText : String := "Why did you quit? You were doing quite well!"

/-! ## moveSnake -/

/-- What one call of `moveSnake` leaves behind: its return value, the array, the reason
buffer, and how many times it executed `stringCopy` on the reason buffer. -/
structure MoveResult where
  moved : Bool
  points : List Point
  reason : String
  reasonWrites : Nat
deriving DecidableEq, Repr

/-- The loop of lines 137-142, `for (i = snakeLen - 1; i > 0; i--) points[i] = points[i - 1]`,
entered with loop variable equal to the first argument. -/
def shiftBody : Nat → List Point → List Point
  | 0, points => points
  | i + 1, points =>
    match points[i]? with
    | some prev => shiftBody i (points.set (i + 1) prev)
    | none => points

/-- Lines 144-145, `points[0].y += dy; points[0].x += dx`. -/
def advanceHead (dy dx : Int) : List Point → List Point
  | [] => []
  | head :: rest => { y := head.y + dy, x := head.x + dx } :: rest

/-- `moveSnake` (lines 121-148). `scr` is the screen seen by its `isInBounds` call and
`reason` the content of the reason buffer before the call. -/
def moveSnake (scr : Screen) (points : List Point) (dy dx : Int) (reason : String) :
    Option MoveResult :=
  match points with
  | [] => none
  | head :: _ =>
    if !isInBounds scr (head.y + dy) (head.x + dx) then
      some { moved := false, points := points,
             reason := stringCopy MAX_REASON_LEN outOfBoundsText, reasonWrites := 1 }
    else if isOverlapped { y := head.y + dy, x := head.x + dx } points then
      some { moved := false, points := points,
             reason := stringCopy MAX_REASON_LEN ateItselfText, reasonWrites := 1 }
    else
      some { moved := true,
             points := advanceHead dy dx (shiftBody (points.length - 1) points),
             reason := reason, reasonWrites := 0 }

/-! ## addFood -/

/-- The function-local statics `foodX`, `foodY` of `addFood` (lines 177-178). -/
structure FoodStatics where
  foodX : Int
  foodY : Int
deriving DecidableEq, Repr

/-- The `do ... while` loop of lines 187-190. Every round draws two `rand()` values
(first the row, then the column), stores their remainders in the statics, and repeats
while the stored point lies on the snake. -/
def sampleFood (scr : Screen) (points : List Point) : List Nat → Option (FoodStatics × List Nat)
  | r1 :: r2 :: rest =>
    if scr.maxY = 0 ∨ scr.maxX = 0 then none
    else
      let foodY := Int.tmod (r1 : Int) scr.maxY
      let foodX := Int.tmod (r2 : Int) scr.maxX
      if isOverlapped { y := foodY, x := foodX } points then sampleFood scr points rest
      else some ({ foodX := foodX, foodY := foodY }, rest)
  | _ => none

/-- `addFood` (lines 176-200): the returned point, the statics afterwards and the
`rand()` values left over. -/
def addFood (eaten : Bool) (points : List Point) (scr : Screen) (st : FoodStatics)
    (rands : List Nat) : Option (Point × FoodStatics × List Nat) :=
  if eaten then
    match sampleFood scr points rands with
    | some (st1, rest) => some ({ y := st1.foodY, x := st1.foodX }, st1, rest)
    | none => none
  else
    some ({ y := st.foodY, x := st.foodX }, st, rands)

/-! ## resetSnake -/

/-- The loop of lines 216-220; the first argument counts the rounds still to run, the
second is the loop variable `i`. -/
def resetBody : Nat → Nat → List Point → List Point
  | 0, _, points => points
  | n + 1, i, points =>
    match points[i - 1]? with
    | some prev => resetBody n (i + 1) (points.set i { y := prev.y, x := prev.x - 1 })
    | none => points

/-- `resetSnake` (lines 202-221), writing into the array `points`. -/
def resetSnake (scr : Screen) (points : List Point) : List Point :=
  let curX := Int.tdiv scr.maxX 2
  let curY := Int.tdiv scr.maxY 2
  resetBody (points.length - 1) 1 (points.set 0 { y := curY, x := curX })

/-! ## Input -/

/-- `KEY_DOWN` of curses.h (0402). -/
def KEY_DOWN : Int := 258

/-- `KEY_UP` of curses.h (0403). -/
def KEY_UP : Int := 259

/-- `KEY_LEFT` of curses.h (0404). -/
def KEY_LEFT : Int := 260

/-- `KEY_RIGHT` of curses.h (0405). -/
def KEY_RIGHT : Int := 261

/-- `ERR` of curses.h. -/
def ERR : Int := -1

/-- The character constant `'q'`. -/
def KEY_Q : Int := 113

/-- `UINT_MAX` of limits.h for an `unsigned int` of 32 bits, the width line 98 counts on:
the largest value `score` can hold. -/
def UINT_MAX : Nat := 4294967295

/-- `validateInput` (lines 162-173): the value `*input` holds afterwards. -/
def validateInput (input : Int) : Int :=
  if input = KEY_UP ∨ input = KEY_DOWN ∨ input = KEY_RIGHT ∨ input = KEY_LEFT ∨ input = KEY_Q
  then input else ERR

/-! ## The Playing loop -/

/-- The variables of `loop` that live across iterations (lines 225-237), together with
the statics of `addFood`. -/
structure LoopState where
  points : List Point
  foodLocation : Point
  statics : FoodStatics
  flag : Bool
  direction : Int
  moved : Bool
  getInput : Bool
  score : Nat
  gameOverReason : String
deriving DecidableEq, Repr

/-- What the outside world hands to one iteration of the `while (flag)` loop: the screen
size seen by each `getmaxyx` query the iteration can make, the value `getch()` returns if
it is called, and the values `rand()` returns. -/
structure TickEnv where
  /-- Query of `isInBounds` on line 241. -/
  scrCheck : Screen
  /-- Query of `resetSnake` on line 242. -/
  scrReset : Screen
  /-- Query of `addFood` on line 247. -/
  scrRedraw : Screen
  /-- Result of `getch()` on line 251. -/
  key : Int
  /-- Query of `isInBounds` inside `moveSnake`. -/
  scrMove : Screen
  /-- Query of `addFood` on line 311. -/
  scrFood : Screen
  /-- Results of the successive `rand()` calls. -/
  rands : List Nat
deriving DecidableEq, Repr

/-- Lines 225-237: the state in which the `while` loop is first entered. `points0` is the
content of the array before `resetSnake` fills it and `reason0` that of the reason buffer,
neither of which the program initialises; the statics of `addFood` start at zero. -/
def loopStart (points0 : List Point) (scrReset scrFood : Screen) (rands : List Nat)
    (reason0 : String) : Option LoopState :=
  let points := resetSnake scrReset points0
  match addFood true points scrFood { foodX := 0, foodY := 0 } rands with
  | none => none
  | some (food, st, _) =>
    some { points := points, foodLocation := food, statics := st, flag := true,
           direction := KEY_RIGHT, moved := false, getInput := true, score := 0,
           gameOverReason := reason0 }

/-- The call of line 243, written `addFood(points, SNAKE_LEN, true)` against the parameter
list `(bool eaten, const struct Point* points, int snakeLen)`: `eaten` receives the array
pointer (non-null, hence true), `points` receives the integer 20 converted to a pointer and
`snakeLen` receives 1. With `eaten` true the sampling loop runs, and the `isOverlapped`
scan of its first round reads `points[0]` through that address, which designates no
object. The call has no defined result. -/
def addFoodTransposed : Option (Point × FoodStatics × List Nat) :=
  none

/-- The resize recovery of lines 242-244: `resetSnake`, then the call of line 243, whose
result would become `foodLocation`. -/
def recoverFromResize (s : LoopState) (e : TickEnv) : Option (LoopState × List Nat) :=
  let points := resetSnake e.scrReset s.points
  match addFoodTransposed with
  | none => none
  | some (food, st, rands) =>
    some ({ s with points := points, foodLocation := food, statics := st }, rands)

/-- Lines 249-252: the value of `input` before validation. -/
def readInput (s : LoopState) (e : TickEnv) : Int :=
  if s.getInput then e.key else ERR

/-- Lines 249-255: the value of `input` on which the `switch` of line 257 branches. -/
def resolveInput (s : LoopState) (e : TickEnv) : Int :=
  let input := validateInput (readInput s e)
  if input = ERR then s.direction else input

/-- How the `switch` statement is left: by `break` (or the end of the statement), after
which the rest of the loop body runs, or by `continue`. -/
inductive Flow where
  | fallThrough (s : LoopState)
  | continueLoop (s : LoopState)
deriving DecidableEq, Repr

/-- The common shape of the four direction cases (lines 258-297): `opposite` is the key
the case compares `direction` with and `(dy, dx)` the vector it hands to `moveSnake`. -/
def steer (s : LoopState) (scr : Screen) (input opposite dy dx : Int) : Option Flow :=
  if s.direction ≠ opposite then
    match moveSnake scr s.points dy dx s.gameOverReason with
    | none => none
    | some r =>
      some (.fallThrough { s with points := r.points, gameOverReason := r.reason,
                                  moved := r.moved, direction := input, getInput := true })
  else
    some (.continueLoop { s with getInput := false })

/-- The `switch (input)` of lines 257-302. -/
def switchInput (s : LoopState) (scr : Screen) (input : Int) : Option Flow :=
  if input = KEY_UP then steer s scr input KEY_DOWN (-1) 0
  else if input = KEY_DOWN then steer s scr input KEY_UP 1 0
  else if input = KEY_LEFT then steer s scr input KEY_RIGHT 0 (-1)
  else if input = KEY_RIGHT then steer s scr input KEY_LEFT 0 1
  else if input = KEY_Q then
    some (.fallThrough { s with gameOverReason := stringCopy MAX_REASON_LEN quitText,
                                flag := false })
  else some (.fallThrough s)

/-- Lines 304-313: the test of `moved` and the test for eaten food; `score++` on an
`unsigned int` is the successor modulo `UINT_MAX + 1`. -/
def afterSwitch (s : LoopState) (scrFood : Screen) (rands : List Nat) : Option LoopState :=
  let s1 := if !s.moved then { s with flag := false } else s
  match s1.points with
  | [] => none
  | head :: _ =>
    if arePointsEqual head s1.foodLocation then
      match addFood true s1.points scrFood s1.statics rands with
      | none => none
      | some (food, st, _) =>
        some { s1 with foodLocation := food, statics := st,
                       score := (s1.score + 1) % (UINT_MAX + 1) }
    else some s1

/-- Lines 246-316: the loop body after the resize check. -/
def tickBody (s : LoopState) (e : TickEnv) (rands : List Nat) : Option LoopState :=
  match addFood false s.points e.scrRedraw s.statics rands with
  | none => none
  | some (_, st, rands1) =>
    let s1 := { s with statics := st }
    match switchInput s1 e.scrMove (resolveInput s1 e) with
    | none => none
    | some (.continueLoop s2) => some s2
    | some (.fallThrough s2) => afterSwitch s2 e.scrFood rands1

/-- One iteration of the `while (flag)` loop (lines 239-317). -/
def tick (s : LoopState) (e : TickEnv) : Option LoopState :=
  match s.points with
  | [] => none
  | head :: _ =>
    if !isInBounds e.scrCheck head.y head.x then
      match recoverFromResize s e with
      | none => none
      | some (s1, rands) => tickBody s1 e rands
    else tickBody s e e.rands

/-- The states in which the loop condition `while (flag)` is evaluated during a run of
`loop`: the state built by lines 225-237, and every state an iteration that was entered
(`flag` true) ends in. -/
inductive Reachable : LoopState → Prop
  | start (points0 : List Point) (scrReset scrFood : Screen) (rands : List Nat)
      (reason0 : String) (s : LoopState) :
      points0.length = SNAKE_LEN →
      loopStart points0 scrReset scrFood rands reason0 = some s → Reachable s
  | step (s : LoopState) (e : TickEnv) (s1 : LoopState) :
      Reachable s → s.flag = true → tick s e = some s1 → Reachable s1

/-- Whether the iteration entered in state `s` calls `moveSnake`, the call returns true and
the head it leaves equals the food location `s.foodLocation`. -/
def movedOntoFood (s : LoopState) (e : TickEnv) : Bool :=
  let input := resolveInput s e
  let attempt (opposite dy dx : Int) : Bool :=
    if s.direction = opposite then false
    else
      match moveSnake e.scrMove s.points dy dx s.gameOverReason with
      | some r => r.moved && (match r.points with
                              | head :: _ => decide (head = s.foodLocation)
                              | [] => false)
      | none => false
  if input = KEY_UP then attempt KEY_DOWN (-1) 0
  else if input = KEY_DOWN then attempt KEY_UP 1 0
  else if input = KEY_LEFT then attempt KEY_RIGHT 0 (-1)
  else if input = KEY_RIGHT then attempt KEY_LEFT 0 1
  else false

/-- The state in which `loop` first evaluates its loop condition on a 24 x 80 screen
when the first two `rand()` values are 12 and 41: the snake lies on row 12 with its head
at column 40 and the food is the cell right of the head. -/
def exampleStart : LoopState :=
  { points := resetSnake ⟨24, 80⟩ (List.replicate SNAKE_LEN ⟨0, 0⟩),
    foodLocation := ⟨12, 41⟩, statics := ⟨41, 12⟩, flag := true, direction := KEY_RIGHT,
    moved := false, getInput := true, score := 0, gameOverReason := "" }

/-! ## Runs of moveSnake, and the call an iteration makes -/

/-- A sequence of `moveSnake` calls on one array and one reason buffer; every call comes
with the screen it sees and its vector `(dy, dx)`. The result is the array after the last
call and the number of calls that returned true. -/
def replayMoves (points : List Point) (reason : String) :
    List (Screen × Int × Int) → Option (List Point × Nat)
  | [] => some (points, 0)
  | (scr, dy, dx) :: rest =>
    match moveSnake scr points dy dx reason with
    | none => none
    | some r =>
      match replayMoves r.points r.reason rest with
      | none => none
      | some (final, n) => some (final, if r.moved then n + 1 else n)

/-- The vector `(dy, dx)` the `switch` of lines 257-297 hands to `moveSnake` under each
direction key: (-1,0) for `KEY_UP`, (1,0) for `KEY_DOWN`, (0,-1) for `KEY_LEFT`, (0,1) for
`KEY_RIGHT`; (0,0) stands for every other value, for which there is no call. -/
def directionVector (key : Int) : Int × Int :=
  if key = KEY_UP then (-1, 0)
  else if key = KEY_DOWN then (1, 0)
  else if key = KEY_LEFT then (0, -1)
  else if key = KEY_RIGHT then (0, 1)
  else (0, 0)

/-- The result of the `moveSnake` call that the iteration entered in state `s` makes, and
`none` when it makes no call (rejected reversal, quit key). -/
def moveCall (s : LoopState) (e : TickEnv) : Option MoveResult :=
  let input := resolveInput s e
  let attempt (opposite dy dx : Int) : Option MoveResult :=
    if s.direction = opposite then none
    else moveSnake e.scrMove s.points dy dx s.gameOverReason
  if input = KEY_UP then attempt KEY_DOWN (-1) 0
  else if input = KEY_DOWN then attempt KEY_UP 1 0
  else if input = KEY_LEFT then attempt KEY_RIGHT 0 (-1)
  else if input = KEY_RIGHT then attempt KEY_LEFT 0 1
  else none

/-- The state `exampleStart` is followed by when the key read is `KEY_UP`: the head has
moved to (11,40) and the current direction is `KEY_UP`. -/
def exampleUp : LoopState :=
  { exampleStart with
    points := ⟨11, 40⟩ :: exampleStart.points.dropLast, direction := KEY_UP, moved := true }

/-! ## addFood with the arguments of line 243 -/

/-- What a `const struct Point*` argument designates: an array of points, or a bare
address at which no object lives. -/
inductive PointsRef where
  | array (points : List Point)
  | address (value : Int)
deriving DecidableEq, Repr

/-- The loop of `isOverlapped` (lines 77-81) reading through the pointer it is given; the
first number counts the rounds still to run and the second is the loop variable `i`. The
read of `points[i]` has no defined result when `points` is a bare address or `i` is past
the end of the array. -/
def scanThrough (p : Point) (points : PointsRef) : Nat → Nat → Option Bool
  | 0, _ => some false
  | n + 1, i =>
    match points with
    | .array pts =>
      match pts[i]? with
      | some q => if arePointsEqual p q then some true else scanThrough p points n (i + 1)
      | none => none
    | .address _ => none

/-- `isOverlapped` (lines 76-84) with its three parameters as C passes them. -/
def isOverlappedThrough (p : Point) (points : PointsRef) (snakeLen : Nat) : Option Bool :=
  scanThrough p points snakeLen 0

/-- The `do ... while` loop of lines 187-190 with the parameters of `addFood` as C passes
them. -/
def sampleFoodThrough (scr : Screen) (points : PointsRef) (snakeLen : Nat) :
    List Nat → Option (FoodStatics × List Nat)
  | r1 :: r2 :: rest =>
    if scr.maxY = 0 ∨ scr.maxX = 0 then none
    else
      let foodY := Int.tmod (r1 : Int) scr.maxY
      let foodX := Int.tmod (r2 : Int) scr.maxX
      match isOverlappedThrough { y := foodY, x := foodX } points snakeLen with
      | none => none
      | some true => sampleFoodThrough scr points snakeLen rest
      | some false => some ({ foodX := foodX, foodY := foodY }, rest)
  | _ => none

/-- `addFood` (lines 176-200) with its three parameters as C passes them; `addFood` above
is the case of an array together with its length. -/
def addFoodThrough (eaten : Bool) (points : PointsRef) (snakeLen : Nat) (scr : Screen)
    (st : FoodStatics) (rands : List Nat) : Option (Point × FoodStatics × List Nat) :=
  if eaten then
    match sampleFoodThrough scr points snakeLen rands with
    | some (st1, rest) => some ({ y := st1.foodY, x := st1.foodX }, st1, rest)
    | none => none
  else
    some ({ y := st.foodY, x := st.foodX }, st, rands)

/-! ## A run that eats at every iteration -/

/-- Cell `j` of a lap of 22 cells on a 24 x 80 screen: eleven cells of row 12 from column
41 rightwards, then eleven cells of row 13 from column 51 leftwards. -/
def lapCell (j : Nat) : Point :=
  if j < 11 then { y := 12, x := ((41 + j : Nat) : Int) }
  else { y := 13, x := ((62 - j : Nat) : Int) }

/-- The cells the head of the snake visits in the run: the row `resetSnake` lays on a
24 x 80 screen, from its last segment (12,21) to its head (12,40), and then the lap,
round after round. -/
def lapPath (k : Nat) : Point :=
  if k < 20 then { y := 12, x := ((21 + k : Nat) : Int) } else lapCell ((k - 20) % 22)

/-- The key read in iteration `t` of the run, the one that steers the head to the next cell
of the path. -/
def lapKey (t : Nat) : Int :=
  if t = 0 then KEY_RIGHT
  else if t % 22 = 0 then KEY_UP
  else if t % 22 < 11 then KEY_RIGHT
  else if t % 22 = 11 then KEY_DOWN
  else KEY_LEFT

/-- The snake after `t` iterations of the run: its head is cell `t + 19` of the path and
segment `i` is the cell the head was on `i` iterations earlier. -/
def lapPoints (t : Nat) : List Point :=
  (List.range SNAKE_LEN).map (fun (i : Nat) => lapPath (t + 19 - i))

/-- The state after `t` iterations of the run, but for the score: the food lies on the next
cell of the path. -/
def lapShape (t : Nat) : LoopState :=
  { points := lapPoints t, foodLocation := lapPath (t + 20),
    statics := { foodX := (lapPath (t + 20)).x, foodY := (lapPath (t + 20)).y },
    flag := true, direction := if t = 0 then KEY_RIGHT else lapKey (t - 1),
    moved := decide (0 < t), getInput := true, score := 0, gameOverReason := "" }

/-- The state after `t` iterations of the run: every iteration has eaten, so the
`unsigned int` score is `t` modulo `UINT_MAX + 1`. -/
def lapState (t : Nat) : LoopState :=
  { lapShape t with score := t % (UINT_MAX + 1) }

/-- What iteration `t` of the run receives: a 24 x 80 screen at every query, the key
`lapKey t`, and as `rand()` values the row and the column of the cell after the next. -/
def lapEnv (t : Nat) : TickEnv :=
  { scrCheck := ⟨24, 80⟩, scrReset := ⟨24, 80⟩, scrRedraw := ⟨24, 80⟩, key := lapKey t,
    scrMove := ⟨24, 80⟩, scrFood := ⟨24, 80⟩,
    rands := [(lapPath (t + 21)).y.toNat, (lapPath (t + 21)).x.toNat] }

/-! ## Lemmas on the geometry -/

theorem arePointsEqual_iff (p q : Point) : arePointsEqual p q = true ↔ p = q := by
  cases p; cases q
  simp only [arePointsEqual, Bool.and_eq_true, beq_iff_eq, Point.mk.injEq]
  exact and_comm

theorem isInBounds_iff (scr : Screen) (y x : Int) :
    isInBounds scr y x = true ↔ (0 ≤ y ∧ y < scr.maxY) ∧ (0 ≤ x ∧ x < scr.maxX) := by
  unfold isInBounds
  split <;> rename_i h
  · simp only [true_iff]; exact ⟨⟨h.1, h.2.1⟩, h.2.2.1, h.2.2.2⟩
  · simp only [Bool.false_eq_true, false_iff]
    intro h2; exact h ⟨h2.1.1, h2.1.2, h2.2.1, h2.2.2⟩

theorem isOverlapped_iff_mem (p : Point) (points : List Point) :
    isOverlapped p points = true ↔ p ∈ points := by
  induction points with
  | nil => simp [isOverlapped]
  | cons q rest ih =>
    unfold isOverlapped
    by_cases h : arePointsEqual p q = true
    · have e := (arePointsEqual_iff p q).1 h
      rw [if_pos h, e]
      simp
    · have hne : p ≠ q := fun e => h ((arePointsEqual_iff p q).2 e)
      simp [h, ih, hne]

/-! ## Lemmas on moveSnake -/

theorem shiftBody_length (i : Nat) (points : List Point) :
    (shiftBody i points).length = points.length := by
  induction i generalizing points with
  | zero => rfl
  | succ i ih =>
    unfold shiftBody
    cases points[i]? with
    | none => rfl
    | some prev => simp only [ih, List.length_set]

theorem shiftBody_getElem? (i : Nat) (points : List Point) (hi : i < points.length) (j : Nat) :
    (shiftBody i points)[j]? = if 1 ≤ j ∧ j ≤ i then points[j - 1]? else points[j]? := by
  induction i generalizing points with
  | zero =>
    have : ¬ (1 ≤ j ∧ j ≤ 0) := by omega
    simp only [shiftBody, this, if_false]
  | succ i ih =>
    unfold shiftBody
    have hlt : i < points.length := by omega
    rw [List.getElem?_eq_getElem hlt]
    simp only
    have hlen : i < (points.set (i + 1) points[i]).length := by
      rw [List.length_set]; exact hlt
    rw [ih _ hlen, List.getElem?_set, List.getElem?_set]
    by_cases h1 : 1 ≤ j ∧ j ≤ i
    · have h2 : 1 ≤ j ∧ j ≤ i + 1 := ⟨h1.1, by omega⟩
      have h3 : ¬ (i + 1 = j - 1) := by omega
      simp only [h1, h2, h3, and_self, if_true, if_false]
    · by_cases h4 : j = i + 1
      · subst h4
        have h5 : 1 ≤ i + 1 ∧ i + 1 ≤ i + 1 := ⟨by omega, le_refl _⟩
        have h8 : ¬ (i + 1 ≤ i) := by omega
        simp only [h5, and_self, if_true, hi, Nat.add_sub_cancel,
          List.getElem?_eq_getElem hlt, h8, and_false, if_false]
      · have h6 : ¬ (1 ≤ j ∧ j ≤ i + 1) := by omega
        have h7 : ¬ (i + 1 = j) := fun e => h4 e.symm
        simp only [h1, h6, h7, if_false]

theorem shiftBody_cons (head : Point) (rest : List Point) :
    shiftBody rest.length (head :: rest) = head :: (head :: rest).dropLast := by
  apply List.ext_getElem?
  intro j
  rw [shiftBody_getElem? _ _ (by simp)]
  cases j with
  | zero => simp
  | succ j =>
    rw [List.getElem?_cons_succ (l := (head :: rest).dropLast), List.getElem?_dropLast]
    simp only [Nat.add_sub_cancel, List.length_cons]
    by_cases h : j < rest.length
    · have h2 : 1 ≤ j + 1 ∧ j + 1 ≤ rest.length := by omega
      simp only [h2, and_self, if_true, h]
    · have h2 : ¬ (1 ≤ j + 1 ∧ j + 1 ≤ rest.length) := by omega
      simp only [h2, if_false, h, List.getElem?_cons_succ]
      apply List.getElem?_eq_none; omega

/-- The three outcomes of `moveSnake` on a non-empty snake, in the order the code tests them. -/
theorem moveSnake_cons (scr : Screen) (head : Point) (rest : List Point) (dy dx : Int)
    (reason : String) :
    moveSnake scr (head :: rest) dy dx reason =
      if isInBounds scr (head.y + dy) (head.x + dx) = false then
        some { moved := false, points := head :: rest,
               reason := outOfBoundsText, reasonWrites := 1 }
      else if isOverlapped { y := head.y + dy, x := head.x + dx } (head :: rest) = true then
        some { moved := false, points := head :: rest,
               reason := ateItselfText, reasonWrites := 1 }
      else
        some { moved := true,
               points := { y := head.y + dy, x := head.x + dx } :: (head :: rest).dropLast,
               reason := reason, reasonWrites := 0 } := by
  have e1 : stringCopy MAX_REASON_LEN outOfBoundsText = outOfBoundsText := by decide
  have e2 : stringCopy MAX_REASON_LEN ateItselfText = ateItselfText := by decide
  unfold moveSnake
  simp only [e1, e2, List.length_cons, Nat.add_sub_cancel, shiftBody_cons, advanceHead,
    Bool.not_eq_eq_eq_not, Bool.not_true]

/-! ## moveSnake: claims C1 to C4 -/

/-- C1: on a snake of at least one segment `moveSnake` returns; whenever it returns true the
number of segments is the same as before, the new `points[0]` is the old `points[0]` plus
`(dy, dx)`, and for every index `i` with `1 ≤ i < snakeLen` the new `points[i]` is the old
`points[i - 1]`. -/
theorem moveSnake_true_shifts_segments (scr : Screen) (points : List Point) (dy dx : Int)
    (reason : String) (hlen : 1 ≤ points.length) :
    (∃ r, moveSnake scr points dy dx reason = some r) ∧
    ∀ r, moveSnake scr points dy dx reason = some r → r.moved = true →
      r.points.length = points.length ∧
      (∃ head, points[0]? = some head ∧
        r.points[0]? = some { y := head.y + dy, x := head.x + dx }) ∧
      ∀ i, 1 ≤ i → i < points.length → r.points[i]? = points[i - 1]? := by
  cases points with
  | nil => simp at hlen
  | cons head rest =>
    rw [moveSnake_cons]
    refine ⟨by split <;> [skip; split] <;> exact ⟨_, rfl⟩, ?_⟩
    intro r hr hm
    split at hr
    · cases hr; cases hm
    · split at hr
      · cases hr; cases hm
      · cases hr
        refine ⟨by simp, ⟨head, by simp, by simp⟩, ?_⟩
        intro i h1 h2
        obtain ⟨j, rfl⟩ : ∃ j, i = j + 1 := ⟨i - 1, by omega⟩
        simp only [List.length_cons] at h2
        simp only [List.getElem?_cons_succ, Nat.add_sub_cancel, List.getElem?_dropLast,
          List.length_cons]
        rw [if_pos (by omega)]

/-- C1, at a snake of four segments with a bend, moved one cell right on a 10 x 10 screen. -/
theorem moveSnake_true_shifts_segments_witness :
    moveSnake ⟨10, 10⟩ [⟨5, 5⟩, ⟨5, 4⟩, ⟨5, 3⟩, ⟨4, 3⟩] 0 1 "" =
        some ⟨true, [⟨5, 6⟩, ⟨5, 5⟩, ⟨5, 4⟩, ⟨5, 3⟩], "", 0⟩ ∧
      ([⟨5, 6⟩, ⟨5, 5⟩, ⟨5, 4⟩, ⟨5, 3⟩] : List Point).length =
        ([⟨5, 5⟩, ⟨5, 4⟩, ⟨5, 3⟩, ⟨4, 3⟩] : List Point).length ∧
      ∀ i, 1 ≤ i → i < 4 →
        ([⟨5, 6⟩, ⟨5, 5⟩, ⟨5, 4⟩, ⟨5, 3⟩] : List Point)[i]? =
          ([⟨5, 5⟩, ⟨5, 4⟩, ⟨5, 3⟩, ⟨4, 3⟩] : List Point)[i - 1]? :=
  have hcall : moveSnake ⟨10, 10⟩ [⟨5, 5⟩, ⟨5, 4⟩, ⟨5, 3⟩, ⟨4, 3⟩] 0 1 "" =
      some ⟨true, [⟨5, 6⟩, ⟨5, 5⟩, ⟨5, 4⟩, ⟨5, 3⟩], "", 0⟩ := by decide
  have h := (moveSnake_true_shifts_segments ⟨10, 10⟩ [⟨5, 5⟩, ⟨5, 4⟩, ⟨5, 3⟩, ⟨4, 3⟩] 0 1 ""
    (by decide)).2 _ hcall rfl
  ⟨hcall, h.1, h.2.2⟩

/-- C2: on a snake with head `head`, `moveSnake` returns false with the reason text
"Your snake went out of bounds!" if and only if the candidate head
`(head.y + dy, head.x + dx)` does not satisfy `0 ≤ y < maxY` and `0 ≤ x < maxX`; that
outcome is the one produced also when the candidate lies on a segment of the snake; a head
at (0,5) moving to (-1,5) on a 10 x 10 screen fails in this way. -/
theorem moveSnake_outOfBounds_iff (scr : Screen) (head : Point) (rest : List Point)
    (dy dx : Int) (reason : String) :
    ((∃ r, moveSnake scr (head :: rest) dy dx reason = some r ∧ r.moved = false ∧
        r.reason = "Your snake went out of bounds!") ↔
      ¬ ((0 ≤ head.y + dy ∧ head.y + dy < scr.maxY) ∧
         (0 ≤ head.x + dx ∧ head.x + dx < scr.maxX))) ∧
    (¬ ((0 ≤ head.y + dy ∧ head.y + dy < scr.maxY) ∧
         (0 ≤ head.x + dx ∧ head.x + dx < scr.maxX)) →
      { y := head.y + dy, x := head.x + dx } ∈ head :: rest →
      moveSnake scr (head :: rest) dy dx reason =
        some ⟨false, head :: rest, "Your snake went out of bounds!", 1⟩) ∧
    moveSnake ⟨10, 10⟩ [⟨0, 5⟩] (-1) 0 reason =
      some ⟨false, [⟨0, 5⟩], "Your snake went out of bounds!", 1⟩ := by
  have hne : ateItselfText ≠ "Your snake went out of bounds!" := by decide
  have hb := isInBounds_iff scr (head.y + dy) (head.x + dx)
  refine ⟨⟨?_, ?_⟩, ?_, ?_⟩
  · rintro ⟨r, hr, hm, ht⟩ hin
    rw [moveSnake_cons, if_neg (by simp [hb.2 hin])] at hr
    split at hr
    · cases hr; exact hne ht
    · cases hr; cases hm
  · intro hout
    have hf : isInBounds scr (head.y + dy) (head.x + dx) = false := by
      cases h : isInBounds scr (head.y + dy) (head.x + dx)
      · rfl
      · exact absurd (hb.1 h) hout
    exact ⟨_, by rw [moveSnake_cons, if_pos hf], rfl, rfl⟩
  · intro hout _
    have hf : isInBounds scr (head.y + dy) (head.x + dx) = false := by
      cases h : isInBounds scr (head.y + dy) (head.x + dx)
      · rfl
      · exact absurd (hb.1 h) hout
    rw [moveSnake_cons, if_pos hf]; rfl
  · rw [moveSnake_cons, if_pos (by decide)]; rfl

/-- C3: when the candidate head `(head.y + dy, head.x + dx)` is inside the screen,
`moveSnake` returns false with the reason text "Your snake ate itself!" if and only if the
candidate equals the segment at some index `i < snakeLen` (the last one included), and
returns true otherwise. -/
theorem moveSnake_ateItself_iff (scr : Screen) (head : Point) (rest : List Point)
    (dy dx : Int) (reason : String)
    (hin : (0 ≤ head.y + dy ∧ head.y + dy < scr.maxY) ∧
           (0 ≤ head.x + dx ∧ head.x + dx < scr.maxX)) :
    ((∃ r, moveSnake scr (head :: rest) dy dx reason = some r ∧ r.moved = false ∧
        r.reason = "Your snake ate itself!") ↔
      ∃ i, ∃ h : i < (head :: rest).length,
        (head :: rest)[i] = { y := head.y + dy, x := head.x + dx }) ∧
    ((¬ ∃ i, ∃ h : i < (head :: rest).length,
        (head :: rest)[i] = { y := head.y + dy, x := head.x + dx }) →
      ∃ r, moveSnake scr (head :: rest) dy dx reason = some r ∧ r.moved = true) := by
  have hb : ¬ (isInBounds scr (head.y + dy) (head.x + dx) = false) := by
    rw [(isInBounds_iff scr (head.y + dy) (head.x + dx)).2 hin]; simp
  have hov := isOverlapped_iff_mem { y := head.y + dy, x := head.x + dx } (head :: rest)
  rw [List.mem_iff_getElem] at hov
  rw [moveSnake_cons, if_neg hb]
  refine ⟨⟨?_, ?_⟩, ?_⟩
  · rintro ⟨r, hr, hm, _⟩
    split at hr
    · rename_i h; exact hov.1 h
    · cases hr; cases hm
  · intro h
    rw [if_pos (hov.2 h)]
    exact ⟨_, rfl, rfl, rfl⟩
  · intro h
    rw [if_neg (fun h2 => h (hov.1 h2))]
    exact ⟨_, rfl, rfl⟩

/-- C3, at its two scenarios on a 10 x 10 screen: a head at (5,5) moving right into the cell
(5,6) held by segment index 3 fails with "Your snake ate itself!"; a snake of length 1 at
(5,5) moving by (0,1) succeeds with new head (5,6). -/
theorem moveSnake_ateItself_iff_witness :
    (([⟨5, 5⟩, ⟨4, 5⟩, ⟨4, 6⟩, ⟨5, 6⟩, ⟨6, 6⟩] : List Point)[3]? = some ⟨5 + 0, 5 + 1⟩ ∧
      ∃ r, moveSnake ⟨10, 10⟩ [⟨5, 5⟩, ⟨4, 5⟩, ⟨4, 6⟩, ⟨5, 6⟩, ⟨6, 6⟩] 0 1 "" = some r ∧
        r.moved = false ∧ r.reason = "Your snake ate itself!") ∧
    ((∃ r, moveSnake ⟨10, 10⟩ [⟨5, 5⟩] 0 1 "" = some r ∧ r.moved = true) ∧
      moveSnake ⟨10, 10⟩ [⟨5, 5⟩] 0 1 "" = some ⟨true, [⟨5, 6⟩], "", 0⟩) :=
  ⟨⟨by decide,
    (moveSnake_ateItself_iff ⟨10, 10⟩ ⟨5, 5⟩ [⟨4, 5⟩, ⟨4, 6⟩, ⟨5, 6⟩, ⟨6, 6⟩] 0 1 ""
      (by decide)).1.2 ⟨3, by decide, by decide⟩⟩,
   (moveSnake_ateItself_iff ⟨10, 10⟩ ⟨5, 5⟩ [] 0 1 "" (by decide)).2
      (by
        rintro ⟨i, h, e⟩
        have hi : i = 0 := by simpa using h
        subst hi
        simp at e),
   by decide⟩

/-- C4: `moveSnake` executes `stringCopy` on the reason buffer if and only if it returns
false; when it returns true the buffer holds exactly what it held before the call, whatever
that was, and when it returns false the buffer holds one of the two fixed texts. -/
theorem moveSnake_reason_changed_iff_false (scr : Screen) (head : Point) (rest : List Point)
    (dy dx : Int) (reason : String) :
    ∃ r, moveSnake scr (head :: rest) dy dx reason = some r ∧
      (0 < r.reasonWrites ↔ r.moved = false) ∧
      (r.moved = true → r.reason = reason) ∧
      (r.moved = false →
        r.reason = "Your snake went out of bounds!" ∨ r.reason = "Your snake ate itself!") := by
  rw [moveSnake_cons]
  split
  · exact ⟨_, rfl, by simp, by simp, fun _ => Or.inl rfl⟩
  · split
    · exact ⟨_, rfl, by simp, by simp, fun _ => Or.inr rfl⟩
    · exact ⟨_, rfl, by simp, by simp, by simp⟩

/-! ## isOverlapped: claim C9 -/

/-- C9: `isOverlapped p points` returns true if and only if there is an index
`i < snakeLen` such that `points[i]` has the same `y` and the same `x` as `p`; on the empty
sequence it returns false. -/
theorem isOverlapped_iff_exists_index (p : Point) (points : List Point) :
    (isOverlapped p points = true ↔
      ∃ i, ∃ h : i < points.length, points[i].y = p.y ∧ points[i].x = p.x) ∧
    isOverlapped p [] = false := by
  refine ⟨?_, rfl⟩
  rw [isOverlapped_iff_mem, List.mem_iff_getElem]
  constructor
  · rintro ⟨i, h, e⟩; exact ⟨i, h, by rw [e]; exact ⟨rfl, rfl⟩⟩
  · rintro ⟨i, h, e1, e2⟩
    refine ⟨i, h, ?_⟩
    cases hq : points[i] with
    | mk qy qx =>
      rw [hq] at e1 e2
      cases p; simp only at e1 e2; rw [e1, e2]

/-! ## Lemmas on addFood -/

/-- What a result of the sampling loop looks like: it comes from two `rand()` values and
the point it stores is off the snake. -/
theorem sampleFood_some (scr : Screen) (points : List Point) (rands : List Nat)
    (st1 : FoodStatics) (rest : List Nat) (h : sampleFood scr points rands = some (st1, rest)) :
    (scr.maxY ≠ 0 ∧ scr.maxX ≠ 0) ∧
    (∃ r1 r2 : Nat, st1.foodY = Int.tmod (r1 : Int) scr.maxY ∧
      st1.foodX = Int.tmod (r2 : Int) scr.maxX) ∧
    isOverlapped { y := st1.foodY, x := st1.foodX } points = false := by
  induction rands using sampleFood.induct scr points with
  | case1 r1 r2 tail hz =>
    rw [sampleFood, if_pos hz] at h; cases h
  | case2 r1 r2 tail hz fy fx hov ih =>
    rw [sampleFood, if_neg hz] at h
    simp only [fy, fx] at hov
    simp only [hov, if_true] at h
    exact ih h
  | case3 r1 r2 tail hz fy fx hov =>
    rw [sampleFood, if_neg hz] at h
    simp only [fy, fx] at hov
    simp only [hov] at h
    cases h
    refine ⟨⟨fun e => hz (Or.inl e), fun e => hz (Or.inr e)⟩, ⟨r1, r2, rfl, rfl⟩, ?_⟩
    simpa using hov
  | case4 l hl =>
    have : sampleFood scr points l = none := by
      unfold sampleFood
      split
      · exact absurd rfl (hl _ _ _)
      · rfl
    rw [this] at h; cases h

/-- The sampling loop returns as soon as the supply of `rand()` values holds, at an even
position `2 * k`, a pair whose point is off the snake. -/
theorem sampleFood_returns (scr : Screen) (points : List Point) (hY : scr.maxY ≠ 0)
    (hX : scr.maxX ≠ 0) (k : Nat) (rands : List Nat) (r1 r2 : Nat)
    (h1 : rands[2 * k]? = some r1) (h2 : rands[2 * k + 1]? = some r2)
    (hfree : isOverlapped { y := Int.tmod (r1 : Int) scr.maxY,
                            x := Int.tmod (r2 : Int) scr.maxX } points = false) :
    ∃ res, sampleFood scr points rands = some res := by
  have hz : ¬ (scr.maxY = 0 ∨ scr.maxX = 0) := fun h => h.elim hY hX
  induction k generalizing rands with
  | zero =>
    match rands, h1, h2 with
    | a :: b :: tail, h1, h2 =>
      simp only [Nat.mul_zero, List.getElem?_cons_zero, Option.some.injEq] at h1
      simp only [Nat.mul_zero, Nat.zero_add, List.getElem?_cons_succ, List.getElem?_cons_zero,
        Option.some.injEq] at h2
      subst h1; subst h2
      rw [sampleFood, if_neg hz]
      simp only [hfree]
      exact ⟨_, rfl⟩
  | succ k ih =>
    match rands, h1, h2 with
    | a :: b :: tail, h1, h2 =>
      have e1 : 2 * (k + 1) = (2 * k) + 1 + 1 := by ring
      have e2 : 2 * (k + 1) + 1 = (2 * k + 1) + 1 + 1 := by ring
      rw [e1, List.getElem?_cons_succ, List.getElem?_cons_succ] at h1
      rw [e2, List.getElem?_cons_succ, List.getElem?_cons_succ] at h2
      rw [sampleFood, if_neg hz]
      simp only
      split
      · exact ih tail h1 h2
      · exact ⟨_, rfl⟩

/-! ## Lemmas on the loop body -/

theorem tick_of_head_out (s : LoopState) (e : TickEnv) (head : Point) (rest : List Point)
    (hp : s.points = head :: rest) (hout : isInBounds e.scrCheck head.y head.x = false) :
    tick s e = none := by
  unfold tick
  rw [hp]
  simp only [hout, Bool.not_false, if_true, recoverFromResize, addFoodTransposed]

theorem tick_of_head_in (s : LoopState) (e : TickEnv) (head : Point) (rest : List Point)
    (hp : s.points = head :: rest) (hin : isInBounds e.scrCheck head.y head.x = true) :
    tick s e = tickBody s e e.rands := by
  unfold tick
  rw [hp]
  simp only [hin, Bool.not_true, Bool.false_eq_true, if_false]

/-- Every iteration with a defined result started with the head inside the screen and is
the loop body run on the state it was entered in. -/
theorem tick_some (s : LoopState) (e : TickEnv) (s1 : LoopState) (h : tick s e = some s1) :
    (∃ head rest, s.points = head :: rest ∧ isInBounds e.scrCheck head.y head.x = true) ∧
    tickBody s e e.rands = some s1 := by
  cases hp : s.points with
  | nil => unfold tick at h; rw [hp] at h; cases h
  | cons head rest =>
    cases hb : isInBounds e.scrCheck head.y head.x with
    | false => rw [tick_of_head_out s e head rest hp hb] at h; cases h
    | true =>
      rw [tick_of_head_in s e head rest hp hb] at h
      exact ⟨⟨head, rest, rfl, hb⟩, h⟩

theorem tickBody_eq (s : LoopState) (e : TickEnv) (rands : List Nat) :
    tickBody s e rands =
      match switchInput s e.scrMove (resolveInput s e) with
      | none => none
      | some (.continueLoop s2) => some s2
      | some (.fallThrough s2) => afterSwitch s2 e.scrFood rands := by
  unfold tickBody addFood
  rfl

theorem stringCopy_quitText : stringCopy MAX_REASON_LEN quitText = quitText := by decide

/-- The `switch` on an input that is the exact opposite of the current direction. -/
theorem switchInput_reversal (s : LoopState) (scr : Screen) (input : Int)
    (hopp : (input = KEY_UP ∧ s.direction = KEY_DOWN) ∨ (input = KEY_DOWN ∧ s.direction = KEY_UP) ∨
            (input = KEY_LEFT ∧ s.direction = KEY_RIGHT) ∨
            (input = KEY_RIGHT ∧ s.direction = KEY_LEFT)) :
    switchInput s scr input = some (.continueLoop { s with getInput := false }) := by
  rcases hopp with ⟨hi, hd⟩ | ⟨hi, hd⟩ | ⟨hi, hd⟩ | ⟨hi, hd⟩ <;>
    simp [switchInput, steer, hi, hd, KEY_UP, KEY_DOWN, KEY_LEFT, KEY_RIGHT]

/-! ## The directional lock: claim C5 -/

/-- C5: in an iteration whose resolved input is the exact opposite of the current direction
(Up against Down, Left against Right), every result the iteration can have is the state it
was entered in with only `getInput` cleared: the snake segments, the current direction, the
score and the food location are unchanged, and so are `moved` and the reason buffer, which
a call of `moveSnake` would have set. The iteration has that result whenever the head is
inside the screen at the check of line 241; entered with the head outside, it runs into
the call of line 243 and has no result (see `addFoodTransposed`). -/
theorem reversal_tick_leaves_snake_unchanged (s : LoopState) (e : TickEnv)
    (hopp : (resolveInput s e = KEY_UP ∧ s.direction = KEY_DOWN) ∨
            (resolveInput s e = KEY_DOWN ∧ s.direction = KEY_UP) ∨
            (resolveInput s e = KEY_LEFT ∧ s.direction = KEY_RIGHT) ∨
            (resolveInput s e = KEY_RIGHT ∧ s.direction = KEY_LEFT)) :
    (∀ s1, tick s e = some s1 →
      s1 = { s with getInput := false } ∧
      s1.points = s.points ∧ s1.direction = s.direction ∧ s1.score = s.score ∧
      s1.foodLocation = s.foodLocation ∧ s1.moved = s.moved ∧
      s1.gameOverReason = s.gameOverReason) ∧
    (∀ head rest, s.points = head :: rest → isInBounds e.scrCheck head.y head.x = true →
      tick s e = some { s with getInput := false }) := by
  have hbody : tickBody s e e.rands = some { s with getInput := false } := by
    rw [tickBody_eq, switchInput_reversal s e.scrMove _ hopp]
  constructor
  · intro s1 h
    have h2 := (tick_some s e s1 h).2
    rw [hbody] at h2
    cases h2
    exact ⟨rfl, rfl, rfl, rfl, rfl, rfl, rfl⟩
  · intro head rest hp hin
    rw [tick_of_head_in s e head rest hp hin, hbody]

/-- C5, at the first iteration of a run on a 24 x 80 screen: the snake heads right and the
key read is Left; the iteration gives back the state it was entered in with `getInput`
cleared. -/
theorem reversal_tick_leaves_snake_unchanged_witness :
    (resolveInput exampleStart
        ⟨⟨24, 80⟩, ⟨24, 80⟩, ⟨24, 80⟩, KEY_LEFT, ⟨24, 80⟩, ⟨24, 80⟩, []⟩ = KEY_LEFT ∧
      exampleStart.direction = KEY_RIGHT) ∧
    tick exampleStart ⟨⟨24, 80⟩, ⟨24, 80⟩, ⟨24, 80⟩, KEY_LEFT, ⟨24, 80⟩, ⟨24, 80⟩, []⟩ =
      some { exampleStart with getInput := false } :=
  ⟨by decide,
   (reversal_tick_leaves_snake_unchanged exampleStart
      ⟨⟨24, 80⟩, ⟨24, 80⟩, ⟨24, 80⟩, KEY_LEFT, ⟨24, 80⟩, ⟨24, 80⟩, []⟩
      (Or.inr (Or.inr (Or.inl (by decide))))).2
      ⟨12, 40⟩ (exampleStart.points.tail) (by decide) (by decide)⟩

/-! ## Lemmas on the score -/

/-- Lines 304-313 in one expression. -/
theorem afterSwitch_eq (s2 : LoopState) (scrFood : Screen) (rands : List Nat) :
    afterSwitch s2 scrFood rands =
      match s2.points with
      | [] => none
      | head :: _ =>
        if head = s2.foodLocation then
          match sampleFood scrFood s2.points rands with
          | some (st1, _) =>
            some { s2 with flag := s2.moved && s2.flag,
                           foodLocation := { y := st1.foodY, x := st1.foodX },
                           statics := st1, score := (s2.score + 1) % (UINT_MAX + 1) }
          | none => none
        else some { s2 with flag := s2.moved && s2.flag } := by
  obtain ⟨points, food, st, flag, dir, moved, getInput, score, reason⟩ := s2
  unfold afterSwitch addFood
  cases points with
  | nil => cases moved <;> rfl
  | cons head rest =>
    by_cases hf : head = food
    · subst hf
      have ha : arePointsEqual head head = true := (arePointsEqual_iff _ _).2 rfl
      cases moved <;> simp only [Bool.not_false, Bool.not_true, Bool.false_eq_true, if_true,
        if_false, ha, Bool.false_and, Bool.true_and] <;>
        cases sampleFood scrFood (head :: rest) rands <;> rfl
    · have ha : ¬ (arePointsEqual head food = true) := fun h => hf ((arePointsEqual_iff _ _).1 h)
      cases moved <;> simp only [Bool.not_false, Bool.not_true, Bool.false_eq_true, if_true,
        if_false, ha, hf, Bool.false_and, Bool.true_and]

/-- The two ways through lines 304-313. -/
theorem afterSwitch_some (s2 : LoopState) (scrFood : Screen) (rands : List Nat)
    (s1 : LoopState) (h : afterSwitch s2 scrFood rands = some s1) :
    s1.points = s2.points ∧
    ((s2.points.head? = some s2.foodLocation ∧
        s1.score = (s2.score + 1) % (UINT_MAX + 1) ∧
        isOverlapped s1.foodLocation s1.points = false) ∨
     (s2.points.head? ≠ some s2.foodLocation ∧ s1.score = s2.score ∧
        s1.foodLocation = s2.foodLocation)) := by
  rw [afterSwitch_eq] at h
  split at h
  · cases h
  · rename_i head rest hp
    split at h
    · rename_i heq
      split at h
      · rename_i st1 rest3 hs
        cases h
        refine ⟨rfl, Or.inl ⟨by rw [hp, heq]; rfl, rfl, ?_⟩⟩
        exact (sampleFood_some _ _ _ _ _ hs).2.2
      · cases h
    · rename_i hne
      cases h
      refine ⟨rfl, Or.inr ⟨?_, rfl, rfl⟩⟩
      rw [hp]; simpa using hne

/-- Lines 304-313 when the head is not on the food. -/
theorem afterSwitch_no_food (s2 : LoopState) (scrFood : Screen) (rands : List Nat)
    (head : Point) (rest : List Point) (hp : s2.points = head :: rest)
    (hne : head ≠ s2.foodLocation) :
    afterSwitch s2 scrFood rands = some { s2 with flag := s2.moved && s2.flag } := by
  rw [afterSwitch_eq, hp]
  simp only [hne, if_false]

theorem head_ne_of_not_overlapped (p head : Point) (rest : List Point)
    (h : isOverlapped p (head :: rest) = false) : head ≠ p := by
  intro e
  have : isOverlapped p (head :: rest) = true := by
    rw [isOverlapped_iff_mem, e]; exact List.mem_cons_self _ _
  rw [h] at this; cases this

theorem isOverlapped_eq_false_iff (p : Point) (points : List Point) :
    isOverlapped p points = false ↔ p ∉ points := by
  rw [← isOverlapped_iff_mem]; simp

/-- One direction case of the `switch`, followed by the rest of the loop body, from a state
whose food location is off the snake: the food location is again off the snake, and the
score moves by one exactly when `moveSnake` was called, returned true and left its head on
the food. -/
theorem steer_score (s : LoopState) (e : TickEnv) (input opposite dy dx : Int)
    (rands : List Nat) (s1 : LoopState)
    (hfood : isOverlapped s.foodLocation s.points = false)
    (h : (match steer s e.scrMove input opposite dy dx with
          | none => none
          | some (.continueLoop s2) => some s2
          | some (.fallThrough s2) => afterSwitch s2 e.scrFood rands) = some s1) :
    isOverlapped s1.foodLocation s1.points = false ∧
    s1.score =
      (if (if s.direction = opposite then false
           else
             match moveSnake e.scrMove s.points dy dx s.gameOverReason with
             | some r => r.moved && (match r.points with
                                     | head :: _ => decide (head = s.foodLocation)
                                     | [] => false)
             | none => false) = true
       then (s.score + 1) % (UINT_MAX + 1) else s.score) := by
  unfold steer at h
  by_cases hd : s.direction = opposite
  · simp only [hd, ne_eq, not_true_eq_false, if_false] at h
    cases h
    simp only [hd, if_true, Bool.false_eq_true, if_false]
    exact ⟨hfood, trivial⟩
  · simp only [ne_eq, hd, not_false_eq_true, if_true, if_false] at h ⊢
    cases hp : s.points with
    | nil => rw [hp] at h; simp only [moveSnake] at h; cases h
    | cons head rest =>
      rw [hp] at h hfood
      have hne : head ≠ s.foodLocation := head_ne_of_not_overlapped _ _ _ hfood
      rw [moveSnake_cons] at h ⊢
      by_cases hout : isInBounds e.scrMove (head.y + dy) (head.x + dx) = false
      · rw [if_pos hout] at h ⊢
        simp only at h
        obtain ⟨hpts, hcase⟩ := afterSwitch_some _ _ _ _ h
        simp only [List.head?_cons, Option.some.injEq] at hcase hpts
        rcases hcase with ⟨heq, _, _⟩ | ⟨_, hsc, hsame⟩
        · exact absurd heq hne
        · simp only [Bool.false_and, Bool.false_eq_true, if_false]
          rw [hsame, hpts]
          exact ⟨hfood, hsc⟩
      · rw [if_neg hout] at h ⊢
        by_cases hov : isOverlapped { y := head.y + dy, x := head.x + dx } (head :: rest) = true
        · rw [if_pos hov] at h ⊢
          simp only at h
          obtain ⟨hpts, hcase⟩ := afterSwitch_some _ _ _ _ h
          simp only [List.head?_cons, Option.some.injEq] at hcase hpts
          rcases hcase with ⟨heq, _, _⟩ | ⟨_, hsc, hsame⟩
          · exact absurd heq hne
          · simp only [Bool.false_and, Bool.false_eq_true, if_false]
            rw [hsame, hpts]
            exact ⟨hfood, hsc⟩
        · rw [if_neg hov] at h ⊢
          simp only at h
          simp only [Bool.true_and, decide_eq_true_eq]
          obtain ⟨hpts, hcase⟩ := afterSwitch_some _ _ _ _ h
          simp only [List.head?_cons, Option.some.injEq, ne_eq] at hcase hpts
          rcases hcase with ⟨heq, hsc, hnew⟩ | ⟨hneq, hsc, hsame⟩
          · rw [if_pos heq]
            exact ⟨hnew, hsc⟩
          · rw [if_neg hneq]
            refine ⟨?_, hsc⟩
            rw [hsame, hpts, isOverlapped_eq_false_iff]
            rw [isOverlapped_eq_false_iff] at hfood
            intro hmem
            rcases List.mem_cons.1 hmem with h1 | h2
            · exact hneq h1.symm
            · exact hfood (List.mem_of_mem_dropLast h2)

/-- The loop body from a state whose food location is off the snake: the food location is
again off the snake and the score is raised by one exactly when `movedOntoFood` holds. -/
theorem tickBody_score (s : LoopState) (e : TickEnv) (rands : List Nat) (s1 : LoopState)
    (hfood : isOverlapped s.foodLocation s.points = false)
    (h : tickBody s e rands = some s1) :
    isOverlapped s1.foodLocation s1.points = false ∧
    s1.score =
      (if movedOntoFood s e = true then (s.score + 1) % (UINT_MAX + 1) else s.score) := by
  rw [tickBody_eq] at h
  unfold switchInput at h
  unfold movedOntoFood
  simp only
  have hquit : ∀ s2 : LoopState, s2.points = s.points → s2.foodLocation = s.foodLocation →
      s2.score = s.score → afterSwitch s2 e.scrFood rands = some s1 →
      isOverlapped s1.foodLocation s1.points = false ∧ s1.score = s.score := by
    intro s2 hp hf hs h2
    obtain ⟨hpts, hcase⟩ := afterSwitch_some _ _ _ _ h2
    rcases hcase with ⟨heq, _, _⟩ | ⟨_, hsc, hsame⟩
    · exfalso
      rw [hp, hf] at heq
      cases hpts2 : s.points with
      | nil => rw [hpts2] at heq; cases heq
      | cons head rest =>
        rw [hpts2] at heq hfood
        simp only [List.head?_cons, Option.some.injEq] at heq
        exact head_ne_of_not_overlapped _ _ _ hfood heq
    · rw [hsame, hpts, hp, hf, hsc, hs]
      exact ⟨hfood, rfl⟩
  by_cases h1 : resolveInput s e = KEY_UP
  · rw [if_pos h1] at h ⊢; exact steer_score s e _ _ _ _ rands s1 hfood h
  · rw [if_neg h1] at h ⊢
    by_cases h2 : resolveInput s e = KEY_DOWN
    · rw [if_pos h2] at h ⊢; exact steer_score s e _ _ _ _ rands s1 hfood h
    · rw [if_neg h2] at h ⊢
      by_cases h3 : resolveInput s e = KEY_LEFT
      · rw [if_pos h3] at h ⊢; exact steer_score s e _ _ _ _ rands s1 hfood h
      · rw [if_neg h3] at h ⊢
        by_cases h4 : resolveInput s e = KEY_RIGHT
        · rw [if_pos h4] at h ⊢; exact steer_score s e _ _ _ _ rands s1 hfood h
        · rw [if_neg h4] at h ⊢
          simp only [Bool.false_eq_true, if_false]
          by_cases h5 : resolveInput s e = KEY_Q
          · rw [if_pos h5] at h
            simp only at h
            exact hquit { s with gameOverReason := stringCopy MAX_REASON_LEN quitText,
                                 flag := false } rfl rfl rfl h
          · rw [if_neg h5] at h
            simp only at h
            exact hquit s rfl rfl rfl h

/-- At every evaluation of the loop condition the food location is on no segment of the
snake. -/
theorem Reachable.food_off_snake (s : LoopState) (h : Reachable s) :
    isOverlapped s.foodLocation s.points = false := by
  induction h with
  | start points0 scrReset scrFood rands reason0 s _ hs =>
    unfold loopStart addFood at hs
    simp only [if_true] at hs
    split at hs
    · cases hs
    · rename_i food st rest hadd
      split at hadd
      · rename_i st1 rest1 hsample
        cases hadd; cases hs
        exact (sampleFood_some _ _ _ _ _ hsample).2.2
      · cases hadd
  | step s e s1 _ _ ht ih =>
    exact (tickBody_score s e e.rands s1 ih (tick_some s e s1 ht).2).1

/-- The loop body has a result when it is entered with a non-empty snake, the food off the
snake, and the iteration does not move the head onto the food. -/
theorem tickBody_defined (s : LoopState) (e : TickEnv) (rands : List Nat)
    (head : Point) (rest : List Point) (hp : s.points = head :: rest)
    (hfood : isOverlapped s.foodLocation s.points = false)
    (hno : movedOntoFood s e = false) :
    ∃ s1, tickBody s e rands = some s1 := by
  have hne : head ≠ s.foodLocation := by
    rw [hp] at hfood; exact head_ne_of_not_overlapped _ _ _ hfood
  have hsteer : ∀ input opposite dy dx : Int,
      (if s.direction = opposite then false
       else
         match moveSnake e.scrMove s.points dy dx s.gameOverReason with
         | some r => r.moved && (match r.points with
                                 | head :: _ => decide (head = s.foodLocation)
                                 | [] => false)
         | none => false) = false →
      ∃ s1, (match steer s e.scrMove input opposite dy dx with
             | none => none
             | some (.continueLoop s2) => some s2
             | some (.fallThrough s2) => afterSwitch s2 e.scrFood rands) = some s1 := by
    intro input opposite dy dx hcond
    unfold steer
    by_cases hd : s.direction = opposite
    · simp only [hd, ne_eq, not_true_eq_false, if_false]
      exact ⟨_, rfl⟩
    · simp only [ne_eq, hd, not_false_eq_true, if_true, if_false] at hcond ⊢
      rw [hp, moveSnake_cons] at hcond ⊢
      by_cases hout : isInBounds e.scrMove (head.y + dy) (head.x + dx) = false
      · rw [if_pos hout]
        simp only
        rw [afterSwitch_eq]
        simp only [hne, if_false]
        exact ⟨_, rfl⟩
      · rw [if_neg hout] at hcond ⊢
        by_cases hov : isOverlapped { y := head.y + dy, x := head.x + dx } (head :: rest) = true
        · rw [if_pos hov]
          simp only
          rw [afterSwitch_eq]
          simp only [hne, if_false]
          exact ⟨_, rfl⟩
        · rw [if_neg hov] at hcond ⊢
          simp only [Bool.true_and, decide_eq_false_iff_not] at hcond
          simp only
          rw [afterSwitch_eq]
          simp only [hcond, if_false]
          exact ⟨_, rfl⟩
  rw [tickBody_eq]
  unfold switchInput
  unfold movedOntoFood at hno
  simp only at hno
  by_cases h1 : resolveInput s e = KEY_UP
  · rw [if_pos h1] at hno ⊢; exact hsteer _ _ _ _ hno
  · rw [if_neg h1] at hno ⊢
    by_cases h2 : resolveInput s e = KEY_DOWN
    · rw [if_pos h2] at hno ⊢; exact hsteer _ _ _ _ hno
    · rw [if_neg h2] at hno ⊢
      by_cases h3 : resolveInput s e = KEY_LEFT
      · rw [if_pos h3] at hno ⊢; exact hsteer _ _ _ _ hno
      · rw [if_neg h3] at hno ⊢
        by_cases h4 : resolveInput s e = KEY_RIGHT
        · rw [if_pos h4] at hno ⊢; exact hsteer _ _ _ _ hno
        · rw [if_neg h4]
          by_cases h5 : resolveInput s e = KEY_Q
          · rw [if_pos h5]
            simp only
            rw [afterSwitch_eq]
            simp only [hp, hne, if_false]
            exact ⟨_, rfl⟩
          · rw [if_neg h5]
            simp only
            rw [afterSwitch_eq]
            simp only [hp, hne, if_false]
            exact ⟨_, rfl⟩

/-! ## addFood: claims C7 and C8 -/

/-- C7: on a screen with `maxY > 0` and `maxX > 0`, whenever `addFood(true, points, snakeLen)`
returns, the returned point `(y, x)` satisfies `0 ≤ y < maxY` and `0 ≤ x < maxX`, differs
from every one of the `snakeLen` segments, and is what the statics `foodY`, `foodX` now
hold. The call returns as soon as the `rand()` values hold, as the pair of some round `k`,
a point that is on no segment. -/
theorem addFood_eaten_in_bounds_off_snake (points : List Point) (scr : Screen)
    (st : FoodStatics) (rands : List Nat) (hY : 0 < scr.maxY) (hX : 0 < scr.maxX) :
    (∀ p st1 rest, addFood true points scr st rands = some (p, st1, rest) →
      (0 ≤ p.y ∧ p.y < scr.maxY) ∧ (0 ≤ p.x ∧ p.x < scr.maxX) ∧
      (∀ i, ∀ h : i < points.length, points[i] ≠ p) ∧
      st1 = { foodX := p.x, foodY := p.y }) ∧
    (∀ (k r1 r2 : Nat), rands[2 * k]? = some r1 → rands[2 * k + 1]? = some r2 →
      (∀ i, ∀ h : i < points.length,
        points[i] ≠ { y := Int.tmod (r1 : Int) scr.maxY, x := Int.tmod (r2 : Int) scr.maxX }) →
      ∃ res, addFood true points scr st rands = some res) := by
  constructor
  · intro p st1 rest h
    simp only [addFood, if_true] at h
    split at h
    · rename_i st2 rest2 hs
      cases h
      obtain ⟨_, ⟨r1, r2, hy, hx⟩, hfree⟩ := sampleFood_some _ _ _ _ _ hs
      refine ⟨?_, ?_, ?_, rfl⟩
      · show 0 ≤ st1.foodY ∧ st1.foodY < scr.maxY
        rw [hy]
        exact ⟨Int.tmod_nonneg _ (Int.ofNat_nonneg r1), Int.tmod_lt_of_pos _ hY⟩
      · show 0 ≤ st1.foodX ∧ st1.foodX < scr.maxX
        rw [hx]
        exact ⟨Int.tmod_nonneg _ (Int.ofNat_nonneg r2), Int.tmod_lt_of_pos _ hX⟩
      · intro i hi heq
        rw [isOverlapped_eq_false_iff] at hfree
        exact hfree (heq ▸ List.getElem_mem hi)
    · cases h
  · intro k r1 r2 h1 h2 hfree
    have hov : isOverlapped { y := Int.tmod (r1 : Int) scr.maxY,
                              x := Int.tmod (r2 : Int) scr.maxX } points = false := by
      rw [isOverlapped_eq_false_iff, List.mem_iff_getElem]
      rintro ⟨i, hi, heq⟩
      exact hfree i hi heq
    obtain ⟨⟨st1, rest⟩, hs⟩ := sampleFood_returns scr points (ne_of_gt hY) (ne_of_gt hX)
      k rands r1 r2 h1 h2 hov
    simp only [addFood, if_true, hs]
    exact ⟨_, rfl⟩

/-- C7, on a 10 x 10 screen with a snake of three segments: the first pair of `rand()`
values, (15, 25), lands on the head (5,5) and is rejected, the second, (5, 17), gives the
food (5,7). -/
theorem addFood_eaten_in_bounds_off_snake_witness :
    addFood true [⟨5, 5⟩, ⟨5, 4⟩, ⟨5, 3⟩] ⟨10, 10⟩ ⟨0, 0⟩ [15, 25, 5, 17, 3] =
        some (⟨5, 7⟩, ⟨7, 5⟩, [3]) ∧
      ((0 : Int) ≤ 5 ∧ (5 : Int) < 10) ∧ ((0 : Int) ≤ 7 ∧ (7 : Int) < 10) ∧
      (∀ i, ∀ h : i < ([⟨5, 5⟩, ⟨5, 4⟩, ⟨5, 3⟩] : List Point).length,
        ([⟨5, 5⟩, ⟨5, 4⟩, ⟨5, 3⟩] : List Point)[i] ≠ ⟨5, 7⟩) :=
  have hcall : addFood true [⟨5, 5⟩, ⟨5, 4⟩, ⟨5, 3⟩] ⟨10, 10⟩ ⟨0, 0⟩ [15, 25, 5, 17, 3] =
      some (⟨5, 7⟩, ⟨7, 5⟩, [3]) := by decide
  have h := (addFood_eaten_in_bounds_off_snake [⟨5, 5⟩, ⟨5, 4⟩, ⟨5, 3⟩] ⟨10, 10⟩ ⟨0, 0⟩
    [15, 25, 5, 17, 3] (by decide) (by decide)).1 _ _ _ hcall
  ⟨hcall, h.1, h.2.1, h.2.2.1⟩

/-- C8: `addFood(false, ...)` returns the point the statics hold and leaves the statics as
they are, whatever the snake, the screen and the `rand()` supply are, and it consumes no
`rand()` value; so after any call of `addFood` that returned a point `p`, a call with
`eaten = false` returns `p` again, and so does the call after that one. -/
theorem addFood_not_eaten_returns_stored (points : List Point) (scr : Screen)
    (st : FoodStatics) (rands : List Nat) :
    addFood false points scr st rands = some ({ y := st.foodY, x := st.foodX }, st, rands) ∧
    (∀ (eaten0 : Bool) (points0 : List Point) (scr0 : Screen) (st0 : FoodStatics)
        (rands0 : List Nat) (p : Point) (st1 : FoodStatics) (rest : List Nat),
      addFood eaten0 points0 scr0 st0 rands0 = some (p, st1, rest) →
      addFood false points scr st1 rands = some (p, st1, rands) ∧
      ∀ (points2 : List Point) (scr2 : Screen) (rands2 : List Nat),
        addFood false points2 scr2 st1 rands2 = some (p, st1, rands2)) := by
  have hstored : ∀ (eaten0 : Bool) (points0 : List Point) (scr0 : Screen) (st0 : FoodStatics)
      (rands0 : List Nat) (p : Point) (st1 : FoodStatics) (rest : List Nat),
      addFood eaten0 points0 scr0 st0 rands0 = some (p, st1, rest) →
      p = { y := st1.foodY, x := st1.foodX } := by
    intro eaten0 points0 scr0 st0 rands0 p st1 rest h
    unfold addFood at h
    split at h
    · split at h
      · cases h; rfl
      · cases h
    · cases h; rfl
  refine ⟨rfl, ?_⟩
  intro eaten0 points0 scr0 st0 rands0 p st1 rest h
  rw [hstored _ _ _ _ _ _ _ _ h]
  exact ⟨rfl, fun _ _ _ => rfl⟩

/-! ## The quit key: claim C10 -/

/-- What lines 304-313 leave alone. -/
theorem afterSwitch_frame (s2 : LoopState) (scrFood : Screen) (rands : List Nat)
    (s1 : LoopState) (h : afterSwitch s2 scrFood rands = some s1) :
    s1.points = s2.points ∧ s1.direction = s2.direction ∧
    s1.gameOverReason = s2.gameOverReason ∧ s1.moved = s2.moved ∧
    s1.getInput = s2.getInput ∧ s1.flag = (s2.moved && s2.flag) := by
  rw [afterSwitch_eq] at h
  split at h
  · cases h
  · split at h
    · split at h
      · cases h; exact ⟨rfl, rfl, rfl, rfl, rfl, rfl⟩
      · cases h
    · cases h; exact ⟨rfl, rfl, rfl, rfl, rfl, rfl⟩

/-- The loop body when the key that was read is `'q'`. -/
theorem tickBody_quit (s : LoopState) (e : TickEnv) (rands : List Nat)
    (hget : s.getInput = true) (hkey : e.key = KEY_Q) :
    tickBody s e rands =
      afterSwitch { s with gameOverReason := quitText, flag := false } e.scrFood rands := by
  have hres : resolveInput s e = KEY_Q := by
    simp [resolveInput, readInput, validateInput, hget, hkey, KEY_Q, ERR]
  rw [tickBody_eq, hres]
  simp [switchInput, KEY_Q, KEY_UP, KEY_DOWN, KEY_LEFT, KEY_RIGHT, stringCopy_quitText]

/-- C10: in an iteration that reads the key `'q'`, every result the iteration can have has
the snake segments and the current direction of the state it was entered in, the reason
text "Why did you quit? You were doing quite well!" and `flag` false, so the loop ends;
`moved` keeps its value and the result does not depend on the screen `moveSnake` would have
seen, for `moveSnake` is not called. The iteration has that result, with nothing else
changed, whenever the head is inside the screen at the check of line 241 and not on the
food; entered with the head outside the screen, the iteration runs into the call of
line 243 and has no result (see `addFoodTransposed`). -/
theorem quit_tick_ends_loop_without_moving (s : LoopState) (e : TickEnv)
    (hget : s.getInput = true) (hkey : e.key = KEY_Q) :
    (∀ s1, tick s e = some s1 →
      s1.points = s.points ∧ s1.direction = s.direction ∧
      s1.gameOverReason = "Why did you quit? You were doing quite well!" ∧
      s1.flag = false ∧ s1.moved = s.moved) ∧
    (∀ scr : Screen, tick s { e with scrMove := scr } = tick s e) ∧
    (∀ head rest, s.points = head :: rest → isInBounds e.scrCheck head.y head.x = true →
      head ≠ s.foodLocation →
      tick s e = some { s with gameOverReason := quitText, flag := false }) := by
  refine ⟨?_, ?_, ?_⟩
  · intro s1 ht
    have hb := (tick_some s e s1 ht).2
    rw [tickBody_quit s e e.rands hget hkey] at hb
    obtain ⟨h1, h2, h3, h4, _, h6⟩ := afterSwitch_frame _ _ _ _ hb
    refine ⟨h1, h2, h3, ?_, h4⟩
    rw [h6]; simp
  · intro scr
    cases hp : s.points with
    | nil => unfold tick; rw [hp]
    | cons head rest =>
      cases hb : isInBounds e.scrCheck head.y head.x with
      | false =>
        rw [tick_of_head_out s e head rest hp hb,
          tick_of_head_out s { e with scrMove := scr } head rest hp hb]
      | true =>
        rw [tick_of_head_in s e head rest hp hb,
          tick_of_head_in s { e with scrMove := scr } head rest hp hb,
          tickBody_quit s e e.rands hget hkey,
          tickBody_quit s { e with scrMove := scr } e.rands hget hkey]
  · intro head rest hp hin hne
    rw [tick_of_head_in s e head rest hp hin, tickBody_quit s e e.rands hget hkey,
      afterSwitch_eq]
    simp only [hp, hne, if_false, Bool.and_false]

/-- C10, at the first iteration of a run on a 24 x 80 screen: the key `'q'` ends the loop
with the quit text and the snake where it was, although a move to the right would have
succeeded. -/
theorem quit_tick_ends_loop_without_moving_witness :
    exampleStart.getInput = true ∧
    tick exampleStart ⟨⟨24, 80⟩, ⟨24, 80⟩, ⟨24, 80⟩, KEY_Q, ⟨24, 80⟩, ⟨24, 80⟩, []⟩ =
      some { exampleStart with
        gameOverReason := "Why did you quit? You were doing quite well!", flag := false } ∧
    (∃ r, moveSnake ⟨24, 80⟩ exampleStart.points 0 1 "" = some r ∧ r.moved = true) :=
  ⟨rfl,
   (quit_tick_ends_loop_without_moving exampleStart
      ⟨⟨24, 80⟩, ⟨24, 80⟩, ⟨24, 80⟩, KEY_Q, ⟨24, 80⟩, ⟨24, 80⟩, []⟩ rfl rfl).2.2
      ⟨12, 40⟩ (exampleStart.points.tail) (by decide) (by decide) (by decide),
   by decide⟩

/-! ## resetSnake: claim C13 -/

theorem resetBody_length (n i : Nat) (points : List Point) :
    (resetBody n i points).length = points.length := by
  induction n generalizing i points with
  | zero => rfl
  | succ n ih =>
    unfold resetBody
    cases points[i - 1]? with
    | none => rfl
    | some prev => simp only [ih, List.length_set]

/-- The loop of `resetSnake`, entered at index `i` with the segments below `i` already
on the row `cy`, one column apart from `cx` downwards, leaves the whole array so. -/
theorem resetBody_getElem? (cy cx : Int) (n i : Nat) (points : List Point)
    (hi : 1 ≤ i) (hlen : i + n = points.length)
    (hdone : ∀ j, j < i → points[j]? = some { y := cy, x := cx - (j : Int) })
    (j : Nat) (hj : j < points.length) :
    (resetBody n i points)[j]? = some { y := cy, x := cx - (j : Int) } := by
  induction n generalizing i points with
  | zero =>
    simp only [resetBody]
    exact hdone j (by omega)
  | succ n ih =>
    unfold resetBody
    rw [hdone (i - 1) (by omega)]
    simp only
    have hcast : cx - ((i - 1 : Nat) : Int) - 1 = cx - (i : Int) := by omega
    rw [hcast]
    apply ih (i + 1) _ (by omega) (by rw [List.length_set]; omega)
    · intro k hk
      rw [List.getElem?_set]
      by_cases hki : i = k
      · subst hki
        rw [if_pos rfl, if_pos (by omega)]
      · rw [if_neg hki]
        exact hdone k (by omega)
    · rw [List.length_set]; exact hj

theorem resetSnake_length (scr : Screen) (points : List Point) :
    (resetSnake scr points).length = points.length := by
  unfold resetSnake
  simp only [resetBody_length, List.length_set]

theorem resetSnake_getElem? (scr : Screen) (points : List Point) (j : Nat)
    (hj : j < points.length) :
    (resetSnake scr points)[j]? =
      some { y := Int.tdiv scr.maxY 2, x := Int.tdiv scr.maxX 2 - (j : Int) } := by
  unfold resetSnake
  simp only
  apply resetBody_getElem? _ _ _ 1 _ (le_refl 1)
  · rw [List.length_set]; omega
  · intro k hk
    have hk0 : k = 0 := by omega
    subst hk0
    rw [List.getElem?_set, if_pos rfl, if_pos (by omega)]
    simp
  · rw [List.length_set]; exact hj

/-- C13: for every screen and every array of `snakeLen ≥ 1` points, whatever it held,
`resetSnake` keeps the number of segments and sets segment `i` to
`(maxY / 2, maxX / 2 - i)` for every `i < snakeLen`, the division being that of C
(`Int.tdiv`, which on a screen of non-negative size is the floor division): the head is
at the centre of the screen and segment `i` lies `i` columns to its left on the same
row. -/
theorem resetSnake_sets_row_from_centre (scr : Screen) (points : List Point)
    (hlen : 1 ≤ points.length) :
    (resetSnake scr points).length = points.length ∧
    (∀ i, i < points.length →
      (resetSnake scr points)[i]? =
        some { y := Int.tdiv scr.maxY 2, x := Int.tdiv scr.maxX 2 - (i : Int) }) ∧
    (resetSnake scr points)[0]? =
      some { y := Int.tdiv scr.maxY 2, x := Int.tdiv scr.maxX 2 } ∧
    (0 ≤ scr.maxY → 0 ≤ scr.maxX →
      ∀ i, i < points.length →
        (resetSnake scr points)[i]? = some { y := scr.maxY / 2, x := scr.maxX / 2 - (i : Int) }) := by
  refine ⟨resetSnake_length scr points, fun i hi => resetSnake_getElem? scr points i hi, ?_, ?_⟩
  · rw [resetSnake_getElem? scr points 0 (by omega)]
    simp
  · intro hY hX i hi
    rw [resetSnake_getElem? scr points i hi, Int.tdiv_eq_ediv hY (by decide),
      Int.tdiv_eq_ediv hX (by decide)]

/-- C13, on a 24 x 80 screen with an array of 20 points that all held (7,7): the head is
set to (12,40) and segment 19 to (12,21). -/
theorem resetSnake_sets_row_from_centre_witness :
    1 ≤ (List.replicate 20 (⟨7, 7⟩ : Point)).length ∧
    (resetSnake ⟨24, 80⟩ (List.replicate 20 ⟨7, 7⟩)).length = 20 ∧
    (resetSnake ⟨24, 80⟩ (List.replicate 20 ⟨7, 7⟩))[0]? = some ⟨12, 40⟩ ∧
    (resetSnake ⟨24, 80⟩ (List.replicate 20 ⟨7, 7⟩))[19]? = some ⟨12, 21⟩ :=
  have h := resetSnake_sets_row_from_centre ⟨24, 80⟩ (List.replicate 20 ⟨7, 7⟩) (by decide)
  ⟨by decide, h.1, h.2.2.1, h.2.1 19 (by decide)⟩

/-! ## Pairwise distinct segments: claim C11 -/

theorem nodup_iff_index (l : List Point) :
    l.Nodup ↔ ∀ i j, ∀ hi : i < l.length, ∀ hj : j < l.length, l[i] = l[j] → i = j := by
  constructor
  · intro h i j hi hj e
    exact (h.getElem_inj_iff).1 e
  · intro h
    rw [List.nodup_iff_injective_get]
    intro a b e
    apply Fin.ext
    exact h a.1 b.1 a.2 b.2 (by simpa [List.get_eq_getElem] using e)

theorem resetSnake_eq_map (scr : Screen) (points : List Point) :
    resetSnake scr points =
      (List.range points.length).map
        (fun (i : Nat) => ({ y := Int.tdiv scr.maxY 2, x := Int.tdiv scr.maxX 2 - (i : Int) } : Point)) := by
  apply List.ext_getElem?
  intro j
  by_cases hj : j < points.length
  · rw [resetSnake_getElem? scr points j hj, List.getElem?_map, List.getElem?_range hj]
    rfl
  · rw [List.getElem?_eq_none (by rw [resetSnake_length]; omega),
      List.getElem?_eq_none (by simp; omega)]

theorem resetSnake_nodup (scr : Screen) (points : List Point) :
    (resetSnake scr points).Nodup := by
  rw [resetSnake_eq_map]
  apply List.Nodup.map _ (List.nodup_range _)
  intro a b e
  simp only [Point.mk.injEq, true_and] at e
  omega

theorem moveSnake_length (scr : Screen) (points : List Point) (dy dx : Int) (reason : String)
    (r : MoveResult) (h : moveSnake scr points dy dx reason = some r) :
    r.points.length = points.length := by
  cases points with
  | nil => simp [moveSnake] at h
  | cons head rest =>
    rw [moveSnake_cons] at h
    split at h
    · cases h; rfl
    · split at h
      · cases h; rfl
      · cases h; simp

theorem moveSnake_nodup (scr : Screen) (points : List Point) (dy dx : Int) (reason : String)
    (r : MoveResult) (hd : points.Nodup) (h : moveSnake scr points dy dx reason = some r) :
    r.points.Nodup := by
  cases points with
  | nil => simp [moveSnake] at h
  | cons head rest =>
    rw [moveSnake_cons] at h
    split at h
    · cases h; exact hd
    · split at h
      · cases h; exact hd
      · rename_i hov
        cases h
        rw [isOverlapped_iff_mem] at hov
        exact List.nodup_cons.2
          ⟨fun hm => hov (List.mem_of_mem_dropLast hm), hd.sublist (List.dropLast_sublist _)⟩

theorem moveSnake_defined (scr : Screen) (points : List Point) (dy dx : Int) (reason : String)
    (hlen : 1 ≤ points.length) : ∃ r, moveSnake scr points dy dx reason = some r := by
  cases points with
  | nil => simp at hlen
  | cons head rest =>
    rw [moveSnake_cons]
    split
    · exact ⟨_, rfl⟩
    · split <;> exact ⟨_, rfl⟩

theorem replayMoves_defined (points : List Point) (reason : String)
    (calls : List (Screen × Int × Int)) (hlen : 1 ≤ points.length) :
    ∃ res, replayMoves points reason calls = some res := by
  induction calls generalizing points reason with
  | nil => exact ⟨_, rfl⟩
  | cons c rest ih =>
    obtain ⟨scr, dy, dx⟩ := c
    obtain ⟨r, hr⟩ := moveSnake_defined scr points dy dx reason hlen
    have hl := moveSnake_length _ _ _ _ _ _ hr
    obtain ⟨⟨final, n⟩, hres⟩ := ih r.points r.reason (by omega)
    exact ⟨(final, if r.moved then n + 1 else n), by simp only [replayMoves, hr, hres]⟩

theorem replayMoves_nodup (points : List Point) (reason : String)
    (calls : List (Screen × Int × Int)) (final : List Point) (n : Nat) (hd : points.Nodup)
    (h : replayMoves points reason calls = some (final, n)) : final.Nodup := by
  induction calls generalizing points reason n with
  | nil => simp only [replayMoves, Option.some.injEq, Prod.mk.injEq] at h; rw [← h.1]; exact hd
  | cons c rest ih =>
    obtain ⟨scr, dy, dx⟩ := c
    simp only [replayMoves] at h
    split at h
    · cases h
    · rename_i r hr
      split at h
      · cases h
      · rename_i final2 n2 hres
        cases h
        exact ih r.points r.reason n2 (moveSnake_nodup _ _ _ _ _ _ hd hr) hres

/-- C11: `resetSnake` leaves an array in which no two distinct indices hold the same cell,
every call of `moveSnake`, whether it returns true or false, keeps an array of that kind
so, and hence the array reached from `resetSnake` by any sequence of `moveSnake` calls
(each with its own screen and vector) is of that kind; on an array of at least one point
such a sequence always runs to its end. -/
theorem segments_stay_pairwise_distinct (scr0 : Screen) (points0 : List Point)
    (reason : String) (calls : List (Screen × Int × Int)) :
    (∀ i j, ∀ hi : i < (resetSnake scr0 points0).length,
      ∀ hj : j < (resetSnake scr0 points0).length,
      (resetSnake scr0 points0)[i] = (resetSnake scr0 points0)[j] → i = j) ∧
    (∀ (scr : Screen) (points : List Point) (dy dx : Int) (text : String) (r : MoveResult),
      (∀ i j, ∀ hi : i < points.length, ∀ hj : j < points.length,
        points[i] = points[j] → i = j) →
      moveSnake scr points dy dx text = some r →
      ∀ i j, ∀ hi : i < r.points.length, ∀ hj : j < r.points.length,
        r.points[i] = r.points[j] → i = j) ∧
    (1 ≤ points0.length →
      ∃ res, replayMoves (resetSnake scr0 points0) reason calls = some res) ∧
    (∀ final n, replayMoves (resetSnake scr0 points0) reason calls = some (final, n) →
      ∀ i j, ∀ hi : i < final.length, ∀ hj : j < final.length,
        final[i] = final[j] → i = j) := by
  refine ⟨(nodup_iff_index _).1 (resetSnake_nodup scr0 points0), ?_, ?_, ?_⟩
  · intro scr points dy dx text r hd h
    exact (nodup_iff_index _).1 (moveSnake_nodup _ _ _ _ _ _ ((nodup_iff_index _).2 hd) h)
  · intro hlen
    exact replayMoves_defined _ _ _ (by rw [resetSnake_length]; exact hlen)
  · intro final n h
    exact (nodup_iff_index _).1 (replayMoves_nodup _ _ _ _ _ (resetSnake_nodup scr0 points0) h)

/-! ## Segments inside the screen: claim C12 -/

/-- After a `moveSnake` that returned true on a snake in which no other segment lies on the
cell of the last segment: the vector is not (0,0), the old tail cell is free, the new head
cell was free and is taken, and every other cell is occupied as before. -/
theorem move_frees_unshared_tail (scr : Screen) (head : Point) (rest : List Point)
    (dy dx : Int) (reason : String) (r : MoveResult)
    (hcall : moveSnake scr (head :: rest) dy dx reason = some r) (hmoved : r.moved = true)
    (htail : (head :: rest).getLast (List.cons_ne_nil head rest) ∉ (head :: rest).dropLast) :
    (dy, dx) ≠ (0, 0) ∧
    (head :: rest).getLast (List.cons_ne_nil head rest) ∉ r.points ∧
    ({ y := head.y + dy, x := head.x + dx } : Point) ∉ head :: rest ∧
    ({ y := head.y + dy, x := head.x + dx } : Point) ∈ r.points ∧
    (∀ c : Point, c ≠ (head :: rest).getLast (List.cons_ne_nil head rest) →
      c ≠ { y := head.y + dy, x := head.x + dx } → (c ∈ r.points ↔ c ∈ head :: rest)) ∧
    (∀ c : Point, c ∈ r.points ↔
      c = { y := head.y + dy, x := head.x + dx } ∨
      (c ∈ head :: rest ∧ c ≠ (head :: rest).getLast (List.cons_ne_nil head rest))) := by
  have hsplit : ∀ c : Point, c ∈ head :: rest ↔
      c ∈ (head :: rest).dropLast ∨ c = (head :: rest).getLast (List.cons_ne_nil head rest) := by
    intro c
    conv_lhs => rw [← List.dropLast_append_getLast (List.cons_ne_nil head rest)]
    simp
  have hlast : (head :: rest).getLast (List.cons_ne_nil head rest) ∈ head :: rest :=
    List.getLast_mem _
  rw [moveSnake_cons] at hcall
  split at hcall
  · cases hcall; cases hmoved
  · split at hcall
    · cases hcall; cases hmoved
    · rename_i hov
      cases hcall
      rw [isOverlapped_iff_mem] at hov
      have hnew : ({ y := head.y + dy, x := head.x + dx } : Point) ≠ head := by
        intro e
        apply hov
        rw [e]
        exact List.mem_cons_self _ _
      refine ⟨?_, ?_, hov, List.mem_cons_self _ _, ?_, ?_⟩
      · intro e
        simp only [Prod.mk.injEq] at e
        apply hnew
        cases head
        simp [e.1, e.2]
      · intro hm
        rcases List.mem_cons.1 hm with h1 | h2
        · exact hov (h1 ▸ hlast)
        · exact htail h2
      · intro c hc1 hc2
        rw [List.mem_cons, hsplit c]
        constructor
        · rintro (h | h)
          · exact absurd h hc2
          · exact Or.inl h
        · rintro (h | h)
          · exact Or.inr h
          · exact absurd h hc1
      · intro c
        rw [List.mem_cons, hsplit c]
        constructor
        · rintro (h | h)
          · exact Or.inl h
          · exact Or.inr ⟨Or.inl h, fun e => htail (e ▸ h)⟩
        · rintro (h | ⟨h1 | h1, h2⟩)
          · exact Or.inl h
          · exact Or.inr h1
          · exact absurd h1 h2

/-- C14: for every snake, that is every array of at least one segment whose segments lie
on pairwise distinct cells, as the data model has it and as every array that a run hands
to `moveSnake` is, after a `moveSnake` that returned true the vector is other than (0,0) and
the set of occupied cells is the set before the move with the old tail cell, that of
`points[snakeLen - 1]`, removed and the new head cell added: the old tail cell is no longer
occupied, the new head cell was not occupied before and is occupied now, and every other
cell is occupied after the move if and only if it was occupied before. -/
theorem move_changes_occupied_cells_by_tail_and_head (scr : Screen) (head : Point)
    (rest : List Point) (dy dx : Int) (reason : String) (r : MoveResult)
    (hdistinct : ∀ i j, ∀ hi : i < (head :: rest).length, ∀ hj : j < (head :: rest).length,
      (head :: rest)[i] = (head :: rest)[j] → i = j)
    (hcall : moveSnake scr (head :: rest) dy dx reason = some r) (hmoved : r.moved = true) :
    (head :: rest)[(head :: rest).length - 1]? =
      some ((head :: rest).getLast (List.cons_ne_nil head rest)) ∧
    (dy, dx) ≠ (0, 0) ∧
    (head :: rest).getLast (List.cons_ne_nil head rest) ∉ r.points ∧
    ({ y := head.y + dy, x := head.x + dx } : Point) ∉ head :: rest ∧
    ({ y := head.y + dy, x := head.x + dx } : Point) ∈ r.points ∧
    (∀ c : Point, c ≠ (head :: rest).getLast (List.cons_ne_nil head rest) →
      c ≠ { y := head.y + dy, x := head.x + dx } → (c ∈ r.points ↔ c ∈ head :: rest)) ∧
    (∀ c : Point, c ∈ r.points ↔
      c = { y := head.y + dy, x := head.x + dx } ∨
      (c ∈ head :: rest ∧ c ≠ (head :: rest).getLast (List.cons_ne_nil head rest))) := by
  have hnodup : (head :: rest).Nodup := (nodup_iff_index _).2 hdistinct
  have htail : (head :: rest).getLast (List.cons_ne_nil head rest) ∉ (head :: rest).dropLast := by
    intro hmem
    have hsplit := List.dropLast_append_getLast (List.cons_ne_nil head rest)
    rw [← hsplit] at hnodup
    exact (List.disjoint_of_nodup_append hnodup) hmem (List.mem_singleton_self _)
  refine ⟨?_, move_frees_unshared_tail scr head rest dy dx reason r hcall hmoved htail⟩
  rw [← List.getLast?_eq_getElem?, List.getLast?_eq_getLast _ (List.cons_ne_nil head rest)]

/-- C14, on a 10 x 10 screen: the bent snake (5,5), (5,4), (5,3), (4,3), whose cells are
pairwise distinct, moves right; the old tail cell (4,3) is free afterwards and the new head
cell (5,6), free before, is taken. -/
theorem move_changes_occupied_cells_by_tail_and_head_witness :
    moveSnake ⟨10, 10⟩ [⟨5, 5⟩, ⟨5, 4⟩, ⟨5, 3⟩, ⟨4, 3⟩] 0 1 "" =
        some ⟨true, [⟨5, 6⟩, ⟨5, 5⟩, ⟨5, 4⟩, ⟨5, 3⟩], "", 0⟩ ∧
    ([⟨5, 5⟩, ⟨5, 4⟩, ⟨5, 3⟩, ⟨4, 3⟩] : List Point)[4 - 1]? = some ⟨4, 3⟩ ∧
    (⟨4, 3⟩ : Point) ∉ ([⟨5, 6⟩, ⟨5, 5⟩, ⟨5, 4⟩, ⟨5, 3⟩] : List Point) ∧
    (⟨5, 6⟩ : Point) ∉ ([⟨5, 5⟩, ⟨5, 4⟩, ⟨5, 3⟩, ⟨4, 3⟩] : List Point) ∧
    (⟨5, 6⟩ : Point) ∈ ([⟨5, 6⟩, ⟨5, 5⟩, ⟨5, 4⟩, ⟨5, 3⟩] : List Point) :=
  have hcall : moveSnake ⟨10, 10⟩ [⟨5, 5⟩, ⟨5, 4⟩, ⟨5, 3⟩, ⟨4, 3⟩] 0 1 "" =
      some ⟨true, [⟨5, 6⟩, ⟨5, 5⟩, ⟨5, 4⟩, ⟨5, 3⟩], "", 0⟩ := by decide
  have h := move_changes_occupied_cells_by_tail_and_head ⟨10, 10⟩ ⟨5, 5⟩
    [⟨5, 4⟩, ⟨5, 3⟩, ⟨4, 3⟩] 0 1 "" _
    ((nodup_iff_index _).1 (by decide)) hcall rfl
  ⟨hcall, h.1, h.2.2.1, h.2.2.2.1, h.2.2.2.2.1⟩

/-- C16, as amended: a `moveSnake` that returned true keeps the number of segments,
translates the head by `(dy, dx)` and puts every other segment `i` on the old cell of
segment `i - 1`, whichever way the vector points; so segment `i` lies on its old position
plus `(dy, dx)` if and only if `i = 0` or the old segment `i - 1` was on that cell
already. -/
theorem move_translates_only_aligned_segments (scr : Screen) (points : List Point)
    (dy dx : Int) (reason : String) (r : MoveResult)
    (hcall : moveSnake scr points dy dx reason = some r) (hmoved : r.moved = true) :
    r.points.length = points.length ∧
    (∃ head, points[0]? = some head ∧
      r.points[0]? = some { y := head.y + dy, x := head.x + dx }) ∧
    (∀ i : Nat, 1 ≤ i → i < points.length → r.points[i]? = points[i - 1]?) ∧
    ∀ (i : Nat) (p q : Point), points[i]? = some p → r.points[i]? = some q →
      (q = { y := p.y + dy, x := p.x + dx } ↔
        (i = 0 ∨ points[i - 1]? = some { y := p.y + dy, x := p.x + dx })) := by
  cases points with
  | nil => simp [moveSnake] at hcall
  | cons head rest =>
    rw [moveSnake_cons] at hcall
    split at hcall
    · cases hcall; cases hmoved
    · split at hcall
      · cases hcall; cases hmoved
      · cases hcall
        refine ⟨by simp, ⟨head, by simp, by simp⟩, ?_, ?_⟩
        · intro i h1 h2
          obtain ⟨j, rfl⟩ : ∃ j, i = j + 1 := ⟨i - 1, by omega⟩
          simp only [List.length_cons] at h2
          simp only [List.getElem?_cons_succ, Nat.add_sub_cancel, List.getElem?_dropLast,
            List.length_cons]
          rw [if_pos (by omega)]
        intro i p q hp hq
        cases i with
        | zero =>
          simp only [List.getElem?_cons_zero, Option.some.injEq] at hp hq
          subst hp
          simp [hq.symm]
        | succ i =>
          rw [List.getElem?_cons_succ, List.getElem?_dropLast] at hq
          split at hq
          · simp only [Nat.add_sub_cancel, hq, Option.some.injEq]
            simp
          · cases hq

/-- C16 as amended, on a 10 x 10 screen with the bent snake (5,5), (5,4), (5,3), (4,3)
moving by (0,1): segments 0, 1 and 2 end one column to the right of where they were,
segment 3 does not. -/
theorem move_translates_only_aligned_segments_witness :
    moveSnake ⟨10, 10⟩ [⟨5, 5⟩, ⟨5, 4⟩, ⟨5, 3⟩, ⟨4, 3⟩] 0 1 "" =
        some ⟨true, [⟨5, 6⟩, ⟨5, 5⟩, ⟨5, 4⟩, ⟨5, 3⟩], "", 0⟩ ∧
    ((⟨5, 5⟩ : Point) = ⟨5 + 0, 4 + 1⟩ ↔
      (1 = 0 ∨ ([⟨5, 5⟩, ⟨5, 4⟩, ⟨5, 3⟩, ⟨4, 3⟩] : List Point)[1 - 1]? = some ⟨5 + 0, 4 + 1⟩)) ∧
    ((⟨5, 3⟩ : Point) = ⟨4 + 0, 3 + 1⟩ ↔
      (3 = 0 ∨ ([⟨5, 5⟩, ⟨5, 4⟩, ⟨5, 3⟩, ⟨4, 3⟩] : List Point)[3 - 1]? = some ⟨4 + 0, 3 + 1⟩)) :=
  have hcall : moveSnake ⟨10, 10⟩ [⟨5, 5⟩, ⟨5, 4⟩, ⟨5, 3⟩, ⟨4, 3⟩] 0 1 "" =
      some ⟨true, [⟨5, 6⟩, ⟨5, 5⟩, ⟨5, 4⟩, ⟨5, 3⟩], "", 0⟩ := by decide
  have h := move_translates_only_aligned_segments ⟨10, 10⟩
    [⟨5, 5⟩, ⟨5, 4⟩, ⟨5, 3⟩, ⟨4, 3⟩] 0 1 "" _ hcall rfl
  ⟨hcall, h.2.2.2 1 ⟨5, 4⟩ ⟨5, 5⟩ rfl rfl, h.2.2.2 3 ⟨4, 3⟩ ⟨5, 3⟩ rfl rfl⟩

/-- C16 fails as stated on a 10 x 10 screen: the bent snake (5,5), (5,4), (5,3), (4,3)
moves by (0,1), `moveSnake` returns true, and segment 3 ends at (5,3), the old cell of
segment 2, not at its own old position plus the vector, (4,4). -/
theorem move_rigid_translation_counterexample :
    ∃ r, moveSnake ⟨10, 10⟩ [⟨5, 5⟩, ⟨5, 4⟩, ⟨5, 3⟩, ⟨4, 3⟩] 0 1 "" = some r ∧
      r.moved = true ∧
      ([⟨5, 5⟩, ⟨5, 4⟩, ⟨5, 3⟩, ⟨4, 3⟩] : List Point)[3]? = some ⟨4, 3⟩ ∧
      r.points[3]? = some ⟨5, 3⟩ ∧
      (⟨5, 3⟩ : Point) ≠ ⟨4 + 0, 3 + 1⟩ :=
  ⟨⟨true, [⟨5, 6⟩, ⟨5, 5⟩, ⟨5, 4⟩, ⟨5, 3⟩], "", 0⟩, by decide, rfl, by decide, by decide,
    by decide⟩

/-- C20: on a snake of at least one segment `moveSnake` returns, and when it returns false,
for the candidate head being outside the screen or on a segment, the array holds at every
index what it held before the call. -/
theorem moveSnake_false_leaves_snake (scr : Screen) (head : Point) (rest : List Point)
    (dy dx : Int) (reason : String) :
    ∃ r, moveSnake scr (head :: rest) dy dx reason = some r ∧
      (r.moved = false →
        r.points = head :: rest ∧ ∀ i : Nat, r.points[i]? = (head :: rest)[i]?) ∧
      (r.moved = false ↔
        (isInBounds scr (head.y + dy) (head.x + dx) = false ∨
          ({ y := head.y + dy, x := head.x + dx } : Point) ∈ head :: rest)) := by
  rw [moveSnake_cons]
  by_cases hout : isInBounds scr (head.y + dy) (head.x + dx) = false
  · rw [if_pos hout]
    exact ⟨_, rfl, fun _ => ⟨rfl, fun _ => rfl⟩, by simp [hout]⟩
  · rw [if_neg hout]
    by_cases hov : isOverlapped { y := head.y + dy, x := head.x + dx } (head :: rest) = true
    · rw [if_pos hov]
      refine ⟨_, rfl, fun _ => ⟨rfl, fun _ => rfl⟩, ?_⟩
      rw [isOverlapped_iff_mem] at hov
      simp only [true_iff]
      exact Or.inr hov
    · rw [if_neg hov]
      rw [isOverlapped_iff_mem] at hov
      refine ⟨_, rfl, ?_, ?_⟩
      · intro h; cases h
      · simp only [Bool.true_eq_false, false_iff, not_or]
        exact ⟨hout, hov⟩

/-! ## The resize recovery: claim C17 -/

theorem scanThrough_array (p : Point) (points : List Point) (n i : Nat)
    (h : i + n = points.length) :
    scanThrough p (.array points) n i = some (isOverlapped p (points.drop i)) := by
  induction n generalizing i with
  | zero =>
    have : points.drop i = [] := List.drop_eq_nil_of_le (by omega)
    rw [this]; rfl
  | succ n ih =>
    have hi : i < points.length := by omega
    unfold scanThrough
    simp only [List.getElem?_eq_getElem hi]
    rw [List.drop_eq_getElem_cons hi]
    unfold isOverlapped
    split
    · rfl
    · exact ih (i + 1) (by omega)

/-- Through an array and its length the pointer-passing scan is `isOverlapped`. -/
theorem isOverlappedThrough_array (p : Point) (points : List Point) :
    isOverlappedThrough p (.array points) points.length = some (isOverlapped p points) := by
  unfold isOverlappedThrough
  rw [scanThrough_array p points points.length 0 (by omega)]
  rfl

theorem sampleFoodThrough_array (scr : Screen) (points : List Point) (rands : List Nat) :
    sampleFoodThrough scr (.array points) points.length rands = sampleFood scr points rands := by
  induction rands using sampleFood.induct scr points with
  | case1 r1 r2 tail hz =>
    rw [sampleFood, sampleFoodThrough, if_pos hz, if_pos hz]
  | case2 r1 r2 tail hz fy fx hov ih =>
    rw [sampleFood, sampleFoodThrough, if_neg hz, if_neg hz]
    simp only [fy, fx] at hov
    simp only [isOverlappedThrough_array, hov, if_true]
    exact ih
  | case3 r1 r2 tail hz fy fx hov =>
    rw [sampleFood, sampleFoodThrough, if_neg hz, if_neg hz]
    simp only [fy, fx] at hov
    simp only [isOverlappedThrough_array]
    cases hv : isOverlapped { y := Int.tmod (r1 : Int) scr.maxY,
                              x := Int.tmod (r2 : Int) scr.maxX } points
    · simp
    · exact absurd hv hov
  | case4 l hl =>
    have h1 : sampleFood scr points l = none := by
      unfold sampleFood
      split
      · exact absurd rfl (hl _ _ _)
      · rfl
    have h2 : sampleFoodThrough scr (.array points) points.length l = none := by
      unfold sampleFoodThrough
      split
      · exact absurd rfl (hl _ _ _)
      · rfl
    rw [h1, h2]

/-- Called with an array and its length, as on lines 229, 247 and 311, the pointer-passing
`addFood` is `addFood`. -/
theorem addFoodThrough_array (eaten : Bool) (points : List Point) (scr : Screen)
    (st : FoodStatics) (rands : List Nat) :
    addFoodThrough eaten (.array points) points.length scr st rands =
      addFood eaten points scr st rands := by
  unfold addFoodThrough addFood
  rw [sampleFoodThrough_array]

/-- Called as on line 243, `eaten` true, `points` the address 20 and `snakeLen` 1, `addFood`
has no defined result, whatever the screen and the `rand()` values are. -/
theorem addFoodThrough_transposed (scr : Screen) (st : FoodStatics) (rands : List Nat) :
    addFoodThrough true (.address (SNAKE_LEN : Nat)) 1 scr st rands = none := by
  have hs : sampleFoodThrough scr (.address (SNAKE_LEN : Nat)) 1 rands = none := by
    unfold sampleFoodThrough
    split
    · split
      · rfl
      · rfl
    · rfl
  simp only [addFoodThrough, if_true, hs]

/-- C17 fails on the code: the recovery call is written `addFood(points, SNAKE_LEN, true)`,
which binds `eaten` to the non-null array pointer, `points` to the address 20 and
`snakeLen` to 1; so bound, `addFood` has no defined result on any screen and any `rand()`
values, and neither has the recovery step or the iteration. On a 10 x 10 screen, entered
with the head at (12,40), the iteration has no result, whereas the call the claim describes,
`addFood(true, points, SNAKE_LEN)` on the reset snake, rejects the pair (5,5), which is the
reset head, and returns the free cell (3,3). -/
theorem resize_recovery_food_call_has_no_result :
    (∀ (scr : Screen) (st : FoodStatics) (rands : List Nat),
      addFoodThrough true (.address (SNAKE_LEN : Nat)) 1 scr st rands = addFoodTransposed) ∧
    addFoodTransposed = none ∧
    exampleStart.points.head? = some ⟨12, 40⟩ ∧
    isInBounds ⟨10, 10⟩ 12 40 = false ∧
    recoverFromResize exampleStart
      ⟨⟨10, 10⟩, ⟨10, 10⟩, ⟨10, 10⟩, ERR, ⟨10, 10⟩, ⟨10, 10⟩, [5, 5, 3, 3]⟩ = none ∧
    tick exampleStart
      ⟨⟨10, 10⟩, ⟨10, 10⟩, ⟨10, 10⟩, ERR, ⟨10, 10⟩, ⟨10, 10⟩, [5, 5, 3, 3]⟩ = none ∧
    (resetSnake ⟨10, 10⟩ exampleStart.points)[0]? = some ⟨5, 5⟩ ∧
    addFood true (resetSnake ⟨10, 10⟩ exampleStart.points) ⟨10, 10⟩ exampleStart.statics
      [5, 5, 3, 3] = some (⟨3, 3⟩, ⟨3, 3⟩, []) := by
  refine ⟨fun scr st rands => addFoodThrough_transposed scr st rands, rfl, by decide, by decide,
    rfl, by decide, by decide, by decide⟩

/-! ## Unrecognised keys: claim C15 -/

theorem validateInput_ERR : validateInput ERR = ERR := by decide

theorem resolveInput_of_unrecognised (s : LoopState) (e : TickEnv) (k : Int)
    (hk : validateInput k = ERR) : resolveInput s { e with key := k } = s.direction := by
  unfold resolveInput readInput
  cases s.getInput
  · simp [validateInput_ERR]
  · simp [hk]

theorem resolveInput_of_direction (s : LoopState) (e : TickEnv) :
    resolveInput s { e with key := s.direction } = s.direction := by
  unfold resolveInput readInput
  cases s.getInput
  · simp [validateInput_ERR]
  · simp only [if_true]
    by_cases h : validateInput s.direction = ERR
    · simp [h]
    · have hv : validateInput s.direction = s.direction := by
        unfold validateInput at h ⊢
        split
        · rfl
        · rename_i hn; rw [if_neg hn] at h; exact absurd rfl h
      simp only [hv, ite_self]

/-- An iteration depends on the key only through the resolved input. -/
theorem tick_eq_of_resolveInput_eq (s : LoopState) (e : TickEnv) (k1 k2 : Int)
    (h : resolveInput s { e with key := k1 } = resolveInput s { e with key := k2 }) :
    tick s { e with key := k1 } = tick s { e with key := k2 } := by
  cases hp : s.points with
  | nil => unfold tick; rw [hp]
  | cons head rest =>
    cases hb : isInBounds e.scrCheck head.y head.x with
    | false =>
      rw [tick_of_head_out s { e with key := k1 } head rest hp hb,
        tick_of_head_out s { e with key := k2 } head rest hp hb]
    | true =>
      rw [tick_of_head_in s { e with key := k1 } head rest hp hb,
        tick_of_head_in s { e with key := k2 } head rest hp hb,
        tickBody_eq, tickBody_eq, h]

/-- C15: `validateInput` leaves `KEY_UP`, `KEY_DOWN`, `KEY_LEFT`, `KEY_RIGHT` and `'q'` as
they are and turns every other value into `ERR`; and from every state, on every screen,
an iteration whose `getch()` returns `ERR` or any other value that is none of the five
keys does exactly what the iteration does whose `getch()` returns the key of the current
direction: the two have the same result, or both have none. -/
theorem unrecognised_key_repeats_direction (s : LoopState) (e : TickEnv) (k : Int) :
    (∀ input : Int,
      ((input = KEY_UP ∨ input = KEY_DOWN ∨ input = KEY_LEFT ∨ input = KEY_RIGHT ∨
          input = KEY_Q) → validateInput input = input) ∧
      (¬ (input = KEY_UP ∨ input = KEY_DOWN ∨ input = KEY_LEFT ∨ input = KEY_RIGHT ∨
          input = KEY_Q) → validateInput input = ERR)) ∧
    (¬ (k = KEY_UP ∨ k = KEY_DOWN ∨ k = KEY_LEFT ∨ k = KEY_RIGHT ∨ k = KEY_Q) →
      tick s { e with key := k } = tick s { e with key := s.direction }) ∧
    tick s { e with key := ERR } = tick s { e with key := s.direction } := by
  have hval : ∀ input : Int,
      ¬ (input = KEY_UP ∨ input = KEY_DOWN ∨ input = KEY_LEFT ∨ input = KEY_RIGHT ∨
          input = KEY_Q) → validateInput input = ERR := by
    intro input hn
    unfold validateInput
    rw [if_neg]
    intro h
    apply hn
    rcases h with h | h | h | h | h
    · exact Or.inl h
    · exact Or.inr (Or.inl h)
    · exact Or.inr (Or.inr (Or.inr (Or.inl h)))
    · exact Or.inr (Or.inr (Or.inl h))
    · exact Or.inr (Or.inr (Or.inr (Or.inr h)))
  refine ⟨fun input => ⟨?_, hval input⟩, ?_, ?_⟩
  · intro h
    unfold validateInput
    rw [if_pos]
    rcases h with h | h | h | h | h
    · exact Or.inl h
    · exact Or.inr (Or.inl h)
    · exact Or.inr (Or.inr (Or.inr (Or.inl h)))
    · exact Or.inr (Or.inr (Or.inl h))
    · exact Or.inr (Or.inr (Or.inr (Or.inr h)))
  · intro hk
    apply tick_eq_of_resolveInput_eq
    rw [resolveInput_of_unrecognised s e k (hval k hk), resolveInput_of_direction]
  · apply tick_eq_of_resolveInput_eq
    rw [resolveInput_of_unrecognised s e ERR validateInput_ERR, resolveInput_of_direction]

/-! ## How an iteration ends: claim C18 -/

/-- The two ways through a direction case of the `switch`. -/
theorem steer_outcome (s : LoopState) (e : TickEnv) (rands : List Nat) (s1 : LoopState)
    (input opposite dy dx : Int)
    (h : (match steer s e.scrMove input opposite dy dx with
          | none => none
          | some (.continueLoop s2) => some s2
          | some (.fallThrough s2) => afterSwitch s2 e.scrFood rands) = some s1) :
    (s.direction = opposite ∧ s1 = { s with getInput := false }) ∨
    (s.direction ≠ opposite ∧
      ∃ r, moveSnake e.scrMove s.points dy dx s.gameOverReason = some r ∧
        afterSwitch { s with points := r.points, gameOverReason := r.reason, moved := r.moved,
                             direction := input, getInput := true } e.scrFood rands = some s1) := by
  unfold steer at h
  by_cases hd : s.direction = opposite
  · rw [if_neg (fun hn : s.direction ≠ opposite => hn hd)] at h
    cases h
    exact Or.inl ⟨hd, rfl⟩
  · rw [if_pos hd] at h
    cases hm : moveSnake e.scrMove s.points dy dx s.gameOverReason with
    | none => rw [hm] at h; cases h
    | some r =>
      rw [hm] at h
      exact Or.inr ⟨hd, r, rfl, h⟩

/-- The four ways through the loop body: a rejected reversal, a call of `moveSnake`, the
quit key, and an input that is no case of the `switch`. -/
theorem tickBody_cases (s : LoopState) (e : TickEnv) (rands : List Nat) (s1 : LoopState)
    (h : tickBody s e rands = some s1) :
    (((resolveInput s e = KEY_UP ∧ s.direction = KEY_DOWN) ∨
        (resolveInput s e = KEY_DOWN ∧ s.direction = KEY_UP) ∨
        (resolveInput s e = KEY_LEFT ∧ s.direction = KEY_RIGHT) ∨
        (resolveInput s e = KEY_RIGHT ∧ s.direction = KEY_LEFT)) ∧
      moveCall s e = none ∧ s1 = { s with getInput := false }) ∨
    ((resolveInput s e = KEY_UP ∨ resolveInput s e = KEY_DOWN ∨
        resolveInput s e = KEY_LEFT ∨ resolveInput s e = KEY_RIGHT) ∧
      ∃ r, moveCall s e = some r ∧
        moveSnake e.scrMove s.points (directionVector (resolveInput s e)).1
          (directionVector (resolveInput s e)).2 s.gameOverReason = some r ∧
        afterSwitch { s with points := r.points, gameOverReason := r.reason, moved := r.moved,
                             direction := resolveInput s e, getInput := true }
          e.scrFood rands = some s1) ∨
    (resolveInput s e = KEY_Q ∧ moveCall s e = none ∧
      afterSwitch { s with gameOverReason := quitText, flag := false } e.scrFood rands
        = some s1) ∨
    (¬ (resolveInput s e = KEY_UP ∨ resolveInput s e = KEY_DOWN ∨
        resolveInput s e = KEY_LEFT ∨ resolveInput s e = KEY_RIGHT ∨
        resolveInput s e = KEY_Q) ∧
      moveCall s e = none ∧ afterSwitch s e.scrFood rands = some s1) := by
  rw [tickBody_eq] at h
  unfold switchInput at h
  unfold moveCall
  simp only
  by_cases h1 : resolveInput s e = KEY_UP
  · rw [if_pos h1] at h ⊢
    rcases steer_outcome s e rands s1 _ _ _ _ h with ⟨hd, hs⟩ | ⟨hd, r, hr, ha⟩
    · exact Or.inl ⟨Or.inl ⟨h1, hd⟩, by rw [if_pos hd], hs⟩
    · refine Or.inr (Or.inl ⟨Or.inl h1, r, by rw [if_neg hd]; exact hr, ?_, ha⟩)
      rw [h1]; exact hr
  · rw [if_neg h1] at h ⊢
    by_cases h2 : resolveInput s e = KEY_DOWN
    · rw [if_pos h2] at h ⊢
      rcases steer_outcome s e rands s1 _ _ _ _ h with ⟨hd, hs⟩ | ⟨hd, r, hr, ha⟩
      · exact Or.inl ⟨Or.inr (Or.inl ⟨h2, hd⟩), by rw [if_pos hd], hs⟩
      · refine Or.inr (Or.inl ⟨Or.inr (Or.inl h2), r, by rw [if_neg hd]; exact hr, ?_, ha⟩)
        rw [h2]; exact hr
    · rw [if_neg h2] at h ⊢
      by_cases h3 : resolveInput s e = KEY_LEFT
      · rw [if_pos h3] at h ⊢
        rcases steer_outcome s e rands s1 _ _ _ _ h with ⟨hd, hs⟩ | ⟨hd, r, hr, ha⟩
        · exact Or.inl ⟨Or.inr (Or.inr (Or.inl ⟨h3, hd⟩)), by rw [if_pos hd], hs⟩
        · refine Or.inr (Or.inl ⟨Or.inr (Or.inr (Or.inl h3)), r,
            by rw [if_neg hd]; exact hr, ?_, ha⟩)
          rw [h3]; exact hr
      · rw [if_neg h3] at h ⊢
        by_cases h4 : resolveInput s e = KEY_RIGHT
        · rw [if_pos h4] at h ⊢
          rcases steer_outcome s e rands s1 _ _ _ _ h with ⟨hd, hs⟩ | ⟨hd, r, hr, ha⟩
          · exact Or.inl ⟨Or.inr (Or.inr (Or.inr ⟨h4, hd⟩)), by rw [if_pos hd], hs⟩
          · refine Or.inr (Or.inl ⟨Or.inr (Or.inr (Or.inr h4)), r,
              by rw [if_neg hd]; exact hr, ?_, ha⟩)
            rw [h4]; exact hr
        · rw [if_neg h4] at h ⊢
          by_cases h5 : resolveInput s e = KEY_Q
          · rw [if_pos h5] at h
            simp only [stringCopy_quitText] at h
            exact Or.inr (Or.inr (Or.inl ⟨h5, rfl, h⟩))
          · rw [if_neg h5] at h
            simp only at h
            refine Or.inr (Or.inr (Or.inr ⟨?_, rfl, h⟩))
            rintro (h | h | h | h | h)
            · exact h1 h
            · exact h2 h
            · exact h3 h
            · exact h4 h
            · exact h5 h

/-- The resolved input is one of the five keys when the current direction is one of the
four direction keys. -/
theorem resolveInput_key (s : LoopState) (e : TickEnv)
    (hd : s.direction = KEY_UP ∨ s.direction = KEY_DOWN ∨ s.direction = KEY_LEFT ∨
      s.direction = KEY_RIGHT) :
    resolveInput s e = KEY_UP ∨ resolveInput s e = KEY_DOWN ∨ resolveInput s e = KEY_LEFT ∨
      resolveInput s e = KEY_RIGHT ∨ resolveInput s e = KEY_Q := by
  unfold resolveInput
  simp only
  by_cases h : validateInput (readInput s e) = ERR
  · rw [if_pos h]
    rcases hd with h | h | h | h
    · exact Or.inl h
    · exact Or.inr (Or.inl h)
    · exact Or.inr (Or.inr (Or.inl h))
    · exact Or.inr (Or.inr (Or.inr (Or.inl h)))
  · rw [if_neg h]
    unfold validateInput at h ⊢
    split
    · rename_i hk
      rcases hk with h | h | h | h | h
      · exact Or.inl h
      · exact Or.inr (Or.inl h)
      · exact Or.inr (Or.inr (Or.inr (Or.inl h)))
      · exact Or.inr (Or.inr (Or.inl h))
      · exact Or.inr (Or.inr (Or.inr (Or.inr h)))
    · rename_i hk
      rw [if_neg hk] at h
      exact absurd rfl h

theorem moveSnake_true_points (scr : Screen) (head : Point) (rest : List Point) (dy dx : Int)
    (reason : String) (r : MoveResult)
    (h : moveSnake scr (head :: rest) dy dx reason = some r) (hm : r.moved = true) :
    r.points = { y := head.y + dy, x := head.x + dx } :: (head :: rest).dropLast := by
  rw [moveSnake_cons] at h
  split at h
  · cases h; cases hm
  · split at h
    · cases h; cases hm
    · cases h; rfl

theorem directionVector_key (k : Int)
    (hk : k = KEY_UP ∨ k = KEY_DOWN ∨ k = KEY_LEFT ∨ k = KEY_RIGHT) :
    directionVector k ≠ (0, 0) := by
  rcases hk with h | h | h | h <;> subst h <;> decide

/-- What holds whenever a run of `loop` evaluates its loop condition: the snake has
`SNAKE_LEN` segments, the current direction is one of the four direction keys, and, as long
as `flag` is true, segment 1 is the cell one step against the current direction from the
head. -/
theorem Reachable.invariants (s : LoopState) (h : Reachable s) :
    s.points.length = SNAKE_LEN ∧
    (s.direction = KEY_UP ∨ s.direction = KEY_DOWN ∨ s.direction = KEY_LEFT ∨
      s.direction = KEY_RIGHT) ∧
    (s.flag = true →
      ∃ head, s.points[0]? = some head ∧
        s.points[1]? = some { y := head.y - (directionVector s.direction).1,
                              x := head.x - (directionVector s.direction).2 }) := by
  induction h with
  | start points0 scrReset scrFood rands reason0 s hlen hs =>
    unfold loopStart at hs
    simp only at hs
    split at hs
    · cases hs
    · cases hs
      refine ⟨by rw [resetSnake_length]; exact hlen, Or.inr (Or.inr (Or.inr rfl)), fun _ => ?_⟩
      have h20 : points0.length = 20 := hlen
      refine ⟨_, resetSnake_getElem? scrReset points0 0 (by omega), ?_⟩
      rw [resetSnake_getElem? scrReset points0 1 (by omega)]
      have hv : directionVector KEY_RIGHT = (0, 1) := by decide
      simp only [hv]
      congr 2
      · omega
      · push_cast; omega
  | step s e s1 _ hflag ht ih =>
    obtain ⟨hlen, hdir, hneck⟩ := ih
    have hb := (tick_some s e s1 ht).2
    rcases tickBody_cases s e e.rands s1 hb with
      ⟨_, _, hs⟩ | ⟨hkey, r, _, hr, ha⟩ | ⟨_, _, ha⟩ | ⟨_, _, ha⟩
    · subst hs
      exact ⟨hlen, hdir, fun hf => hneck hf⟩
    · obtain ⟨hp, hd, _, _, _, hfl⟩ := afterSwitch_frame _ _ _ _ ha
      simp only at hp hd hfl
      refine ⟨by rw [hp, moveSnake_length _ _ _ _ _ _ hr]; exact hlen, by rw [hd]; exact hkey, ?_⟩
      intro hf
      rw [hfl, hflag, Bool.and_true] at hf
      cases hpts : s.points with
      | nil => rw [hpts] at hlen; cases hlen
      | cons head rest =>
        cases rest with
        | nil => rw [hpts] at hlen; cases hlen
        | cons second more =>
          rw [hpts] at hr
          rw [hp, hd, moveSnake_true_points _ _ _ _ _ _ _ hr hf]
          refine ⟨_, rfl, ?_⟩
          simp only [List.dropLast_cons₂, List.getElem?_cons_succ, List.getElem?_cons_zero,
            Option.some.injEq]
          cases head
          simp
    · obtain ⟨hp, hd, _, _, _, hfl⟩ := afterSwitch_frame _ _ _ _ ha
      simp only at hp hd hfl
      refine ⟨by rw [hp]; exact hlen, by rw [hd]; exact hdir, ?_⟩
      intro hf
      rw [hfl] at hf
      simp at hf
    · obtain ⟨hp, hd, _, _, _, hfl⟩ := afterSwitch_frame _ _ _ _ ha
      refine ⟨by rw [hp]; exact hlen, by rw [hd]; exact hdir, ?_⟩
      intro _
      rw [hp, hd]
      exact hneck hflag

theorem moveSnake_false_reason (scr : Screen) (points : List Point) (dy dx : Int)
    (reason : String) (r : MoveResult)
    (h : moveSnake scr points dy dx reason = some r) (hm : r.moved = false) :
    r.reason = outOfBoundsText ∨ r.reason = ateItselfText := by
  cases points with
  | nil => simp [moveSnake] at h
  | cons head rest =>
    rw [moveSnake_cons] at h
    split at h
    · cases h; exact Or.inl rfl
    · split at h
      · cases h; exact Or.inr rfl
      · cases h; cases hm

/-- C18: from every state in which a run of `loop` evaluates its loop condition with `flag`
true, an iteration leaves `flag` false, so that the loop ends, if and only if its resolved
input is the quit key or the `moveSnake` call it made returned false; after a failed move
the reason buffer handed to `endGame` holds the text that call wrote; after a call that
returned true, and after a rejected reversal, `flag` is still true. An iteration that does
not move the head onto the food has a result whenever the head is inside the screen at the
check of line 241. -/
theorem tick_ends_loop_iff_quit_or_failed_move (s : LoopState) (e : TickEnv)
    (hr : Reachable s) (hflag : s.flag = true) :
    (∀ s1, tick s e = some s1 →
      (s1.flag = false ↔
        (resolveInput s e = KEY_Q ∨ ∃ r, moveCall s e = some r ∧ r.moved = false)) ∧
      (∀ r, moveCall s e = some r → r.moved = false →
        s1.gameOverReason = r.reason ∧
        (r.reason = "Your snake went out of bounds!" ∨ r.reason = "Your snake ate itself!")) ∧
      ((∃ r, moveCall s e = some r ∧ r.moved = true) → s1.flag = true) ∧
      (((resolveInput s e = KEY_UP ∧ s.direction = KEY_DOWN) ∨
          (resolveInput s e = KEY_DOWN ∧ s.direction = KEY_UP) ∨
          (resolveInput s e = KEY_LEFT ∧ s.direction = KEY_RIGHT) ∨
          (resolveInput s e = KEY_RIGHT ∧ s.direction = KEY_LEFT)) → s1.flag = true)) ∧
    (∀ head rest, s.points = head :: rest → isInBounds e.scrCheck head.y head.x = true →
      movedOntoFood s e = false → ∃ s1, tick s e = some s1) := by
  have hdir := (Reachable.invariants s hr).2.1
  have hfood := Reachable.food_off_snake s hr
  have hq1 : KEY_UP ≠ KEY_Q := by decide
  have hq2 : KEY_DOWN ≠ KEY_Q := by decide
  have hq3 : KEY_LEFT ≠ KEY_Q := by decide
  have hq4 : KEY_RIGHT ≠ KEY_Q := by decide
  have hnq : (resolveInput s e = KEY_UP ∨ resolveInput s e = KEY_DOWN ∨
      resolveInput s e = KEY_LEFT ∨ resolveInput s e = KEY_RIGHT) →
      resolveInput s e ≠ KEY_Q := by
    rintro (h | h | h | h) <;> rw [h] <;> assumption
  constructor
  · intro s1 ht
    have hb := (tick_some s e s1 ht).2
    rcases tickBody_cases s e e.rands s1 hb with
      ⟨hrev, hcall, hs⟩ | ⟨hkey, r, hcall, hmv, ha⟩ | ⟨hquit, hcall, ha⟩ | ⟨hother, _, _⟩
    · subst hs
      have hkey : resolveInput s e = KEY_UP ∨ resolveInput s e = KEY_DOWN ∨
          resolveInput s e = KEY_LEFT ∨ resolveInput s e = KEY_RIGHT := by
        rcases hrev with h | h | h | h
        · exact Or.inl h.1
        · exact Or.inr (Or.inl h.1)
        · exact Or.inr (Or.inr (Or.inl h.1))
        · exact Or.inr (Or.inr (Or.inr h.1))
      refine ⟨?_, ?_, ?_, fun _ => hflag⟩
      · simp only [hflag, Bool.true_eq_false, false_iff, not_or, not_exists, hcall]
        exact ⟨hnq hkey, fun r h => by cases h.1⟩
      · intro r h; rw [hcall] at h; cases h
      · rintro ⟨r, h, _⟩; rw [hcall] at h; cases h
    · obtain ⟨_, _, hreason, _, _, hfl⟩ := afterSwitch_frame _ _ _ _ ha
      simp only at hreason hfl
      rw [hflag, Bool.and_true] at hfl
      refine ⟨?_, ?_, ?_, ?_⟩
      · rw [hfl, hcall]
        constructor
        · intro h; exact Or.inr ⟨r, rfl, h⟩
        · rintro (h | ⟨r2, h2, h3⟩)
          · exact absurd h (hnq hkey)
          · cases h2; exact h3
      · intro r2 h2 h3
        rw [hcall] at h2; cases h2
        exact ⟨hreason, moveSnake_false_reason _ _ _ _ _ _ hmv h3⟩
      · rintro ⟨r2, h2, h3⟩
        rw [hcall] at h2; cases h2
        rw [hfl]; exact h3
      · intro hrev
        have hbody : tickBody s e e.rands = some { s with getInput := false } := by
          rw [tickBody_eq, switchInput_reversal s e.scrMove _ hrev]
        rw [hbody] at hb
        cases hb
        exact hflag
    · obtain ⟨_, _, _, _, _, hfl⟩ := afterSwitch_frame _ _ _ _ ha
      simp only [Bool.and_false] at hfl
      refine ⟨?_, ?_, ?_, ?_⟩
      · rw [hfl]; simp only [true_iff]; exact Or.inl hquit
      · intro r h; rw [hcall] at h; cases h
      · rintro ⟨r, h, _⟩; rw [hcall] at h; cases h
      · intro hrev
        exfalso
        rcases hrev with h | h | h | h
        · exact hq1 (h.1 ▸ hquit)
        · exact hq2 (h.1 ▸ hquit)
        · exact hq3 (h.1 ▸ hquit)
        · exact hq4 (h.1 ▸ hquit)
    · exact absurd (resolveInput_key s e hdir) hother
  · intro head rest hp hin hno
    rw [tick_of_head_in s e head rest hp hin]
    exact tickBody_defined s e e.rands head rest hp hfood hno

/-- C18, at the first iteration of a run on a 24 x 80 screen, with the key `KEY_UP` read on
a screen that has meanwhile shrunk to 11 rows: the candidate head (11,40) is outside,
`moveSnake` returns false, and the iteration leaves `flag` false with the out-of-bounds
text in the reason buffer. -/
theorem tick_ends_loop_iff_quit_or_failed_move_witness :
    exampleStart.flag = true ∧
    (∃ s1, tick exampleStart ⟨⟨24, 80⟩, ⟨24, 80⟩, ⟨24, 80⟩, KEY_UP, ⟨11, 80⟩, ⟨24, 80⟩, []⟩
        = some s1 ∧
      s1.flag = false ∧ s1.gameOverReason = "Your snake went out of bounds!" ∧
      s1.points = exampleStart.points) ∧
    (∃ r, moveCall exampleStart
        ⟨⟨24, 80⟩, ⟨24, 80⟩, ⟨24, 80⟩, KEY_UP, ⟨11, 80⟩, ⟨24, 80⟩, []⟩ = some r ∧
      r.moved = false) :=
  have hstart : loopStart (List.replicate 20 ⟨0, 0⟩) ⟨24, 80⟩ ⟨24, 80⟩ [12, 41] "" =
      some exampleStart := by decide
  have htick : tick exampleStart
      ⟨⟨24, 80⟩, ⟨24, 80⟩, ⟨24, 80⟩, KEY_UP, ⟨11, 80⟩, ⟨24, 80⟩, []⟩ =
      some { exampleStart with
        flag := false, direction := KEY_UP, gameOverReason := outOfBoundsText } := by decide
  have hcall : moveCall exampleStart
      ⟨⟨24, 80⟩, ⟨24, 80⟩, ⟨24, 80⟩, KEY_UP, ⟨11, 80⟩, ⟨24, 80⟩, []⟩ =
      some ⟨false, exampleStart.points, outOfBoundsText, 1⟩ := by decide
  have h := (tick_ends_loop_iff_quit_or_failed_move exampleStart
    ⟨⟨24, 80⟩, ⟨24, 80⟩, ⟨24, 80⟩, KEY_UP, ⟨11, 80⟩, ⟨24, 80⟩, []⟩
    (Reachable.start _ _ _ _ _ _ (by decide) hstart) rfl).1 _ htick
  ⟨rfl, ⟨_, htick, h.1.2 (Or.inr ⟨_, hcall, rfl⟩), (h.2.1 _ hcall rfl).1, rfl⟩,
    ⟨_, hcall, rfl⟩⟩

/-! ## The iteration that eats -/

/-- When the iteration calls `moveSnake`, the `switch` is left through the `break` of a
direction case with the result of that call stored. -/
theorem switchInput_of_moveCall (s : LoopState) (e : TickEnv) (r : MoveResult)
    (h : moveCall s e = some r) :
    switchInput s e.scrMove (resolveInput s e) =
      some (.fallThrough { s with points := r.points, gameOverReason := r.reason,
                                  moved := r.moved, direction := resolveInput s e,
                                  getInput := true }) := by
  unfold moveCall at h
  unfold switchInput steer
  simp only at h
  by_cases h1 : resolveInput s e = KEY_UP
  · rw [if_pos h1] at h ⊢
    by_cases hd : s.direction = KEY_DOWN
    · rw [if_pos hd] at h; cases h
    · rw [if_neg hd] at h; rw [if_pos hd, h]
  · rw [if_neg h1] at h ⊢
    by_cases h2 : resolveInput s e = KEY_DOWN
    · rw [if_pos h2] at h ⊢
      by_cases hd : s.direction = KEY_UP
      · rw [if_pos hd] at h; cases h
      · rw [if_neg hd] at h; rw [if_pos hd, h]
    · rw [if_neg h2] at h ⊢
      by_cases h3 : resolveInput s e = KEY_LEFT
      · rw [if_pos h3] at h ⊢
        by_cases hd : s.direction = KEY_RIGHT
        · rw [if_pos hd] at h; cases h
        · rw [if_neg hd] at h; rw [if_pos hd, h]
      · rw [if_neg h3] at h ⊢
        by_cases h4 : resolveInput s e = KEY_RIGHT
        · rw [if_pos h4] at h ⊢
          by_cases hd : s.direction = KEY_LEFT
          · rw [if_pos hd] at h; cases h
          · rw [if_neg hd] at h; rw [if_pos hd, h]
        · rw [if_neg h4] at h; cases h

/-- The iteration moves the head onto the food exactly when it calls `moveSnake`, the call
returns true, and the head the call leaves is the food location. -/
theorem movedOntoFood_iff (s : LoopState) (e : TickEnv) :
    movedOntoFood s e = true ↔
      ∃ r, moveCall s e = some r ∧ r.moved = true ∧ r.points.head? = some s.foodLocation := by
  have hattempt : ∀ opposite dy dx : Int,
      ((if s.direction = opposite then false
        else
          match moveSnake e.scrMove s.points dy dx s.gameOverReason with
          | some r => r.moved && (match r.points with
                                  | head :: _ => decide (head = s.foodLocation)
                                  | [] => false)
          | none => false) = true ↔
       ∃ r, (if s.direction = opposite then none
             else moveSnake e.scrMove s.points dy dx s.gameOverReason) = some r ∧
          r.moved = true ∧ r.points.head? = some s.foodLocation) := by
    intro opposite dy dx
    by_cases hd : s.direction = opposite
    · simp [hd]
    · rw [if_neg hd, if_neg hd]
      cases hm : moveSnake e.scrMove s.points dy dx s.gameOverReason with
      | none => simp
      | some r =>
        cases hp : r.points with
        | nil => simp [hp]
        | cons head rest => simp [hp]
  unfold movedOntoFood moveCall
  simp only
  by_cases h1 : resolveInput s e = KEY_UP
  · rw [if_pos h1, if_pos h1]; exact hattempt _ _ _
  · rw [if_neg h1, if_neg h1]
    by_cases h2 : resolveInput s e = KEY_DOWN
    · rw [if_pos h2, if_pos h2]; exact hattempt _ _ _
    · rw [if_neg h2, if_neg h2]
      by_cases h3 : resolveInput s e = KEY_LEFT
      · rw [if_pos h3, if_pos h3]; exact hattempt _ _ _
      · rw [if_neg h3, if_neg h3]
        by_cases h4 : resolveInput s e = KEY_RIGHT
        · rw [if_pos h4, if_pos h4]; exact hattempt _ _ _
        · rw [if_neg h4, if_neg h4]; simp

/-- The result of an iteration that moves the head onto the food and whose sampling loop
returns: the snake `moveSnake` left, the sampled cell as food, the score raised by one
modulo `UINT_MAX + 1`. -/
theorem tick_eating (s : LoopState) (e : TickEnv) (head : Point) (rest : List Point)
    (r : MoveResult) (st1 : FoodStatics) (rest1 : List Nat)
    (hp : s.points = head :: rest) (hin : isInBounds e.scrCheck head.y head.x = true)
    (hcall : moveCall s e = some r) (hm : r.moved = true)
    (hfood : r.points.head? = some s.foodLocation)
    (hs : sampleFood e.scrFood r.points e.rands = some (st1, rest1)) :
    tick s e =
      some { s with points := r.points, gameOverReason := r.reason, moved := true,
                    direction := resolveInput s e, getInput := true,
                    foodLocation := { y := st1.foodY, x := st1.foodX }, statics := st1,
                    score := (s.score + 1) % (UINT_MAX + 1) } := by
  rw [tick_of_head_in s e head rest hp hin, tickBody_eq, switchInput_of_moveCall s e r hcall]
  simp only
  rw [afterSwitch_eq]
  simp only
  cases hrp : r.points with
  | nil => rw [hrp] at hfood; cases hfood
  | cons h2 t2 =>
    rw [hrp] at hfood hs
    simp only [List.head?_cons, Option.some.injEq] at hfood
    subst hfood
    simp only [if_true, hs, hm, Bool.true_and]

/-! ## The run that eats at every iteration -/

theorem lapPath_add_period (k : Nat) (hk : 20 ≤ k) : lapPath (k + 22) = lapPath k := by
  unfold lapPath
  rw [if_neg (by omega), if_neg (by omega)]
  congr 1
  omega

theorem lapKey_add_period (t : Nat) (ht : 1 ≤ t) : lapKey (t + 22) = lapKey t := by
  unfold lapKey
  have e : (t + 22) % 22 = t % 22 := by omega
  have h1 : ¬ (t + 22 = 0) := by omega
  have h2 : ¬ (t = 0) := by omega
  rw [if_neg h1, if_neg h2, e]

theorem lapPoints_add_period (t : Nat) (ht : 20 ≤ t) : lapPoints (t + 22) = lapPoints t := by
  unfold lapPoints
  apply List.map_congr_left
  intro i hi
  have hi2 : i < 20 := by simpa [SNAKE_LEN] using hi
  have e : t + 22 + 19 - i = (t + 19 - i) + 22 := by omega
  rw [e]
  exact lapPath_add_period _ (by omega)

theorem lapShape_add_period (t : Nat) (ht : 20 ≤ t) : lapShape (t + 22) = lapShape t := by
  unfold lapShape
  have e1 : t + 22 + 20 = (t + 20) + 22 := by omega
  have e2 : t + 22 - 1 = (t - 1) + 22 := by omega
  rw [lapPoints_add_period t ht, e1, lapPath_add_period _ (by omega), if_neg (by omega),
    if_neg (by omega), e2, lapKey_add_period _ (by omega)]
  have e3 : decide (0 < t + 22) = decide (0 < t) := by
    simp; omega
  rw [e3]

theorem lapEnv_add_period (t : Nat) (ht : 20 ≤ t) : lapEnv (t + 22) = lapEnv t := by
  unfold lapEnv
  have e1 : t + 22 + 21 = (t + 21) + 22 := by omega
  rw [lapKey_add_period t (by omega), e1, lapPath_add_period _ (by omega)]

set_option maxRecDepth 100000 in
/-- The first 42 iterations of the run, checked one by one: the head is inside the screen,
`moveSnake` is called and returns true with the next snake of the run, and the sampling
loop returns the cell after the next at its first round. -/
theorem lap_step_small : ∀ t, t < 42 →
    isInBounds ⟨24, 80⟩ (lapPath (t + 19)).y (lapPath (t + 19)).x = true ∧
    (lapPoints t).head? = some (lapPath (t + 19)) ∧
    resolveInput (lapShape t) (lapEnv t) = lapKey t ∧
    moveCall (lapShape t) (lapEnv t) = some ⟨true, lapPoints (t + 1), "", 0⟩ ∧
    (lapPoints (t + 1)).head? = some (lapPath (t + 20)) ∧
    sampleFood ⟨24, 80⟩ (lapPoints (t + 1)) (lapEnv t).rands =
      some ({ foodX := (lapPath (t + 21)).x, foodY := (lapPath (t + 21)).y }, []) := by
  decide

/-- Every iteration of the run: the facts of `lap_step_small`, carried from one lap to the
next. -/
theorem lap_step (t : Nat) :
    isInBounds ⟨24, 80⟩ (lapPath (t + 19)).y (lapPath (t + 19)).x = true ∧
    (lapPoints t).head? = some (lapPath (t + 19)) ∧
    resolveInput (lapShape t) (lapEnv t) = lapKey t ∧
    moveCall (lapShape t) (lapEnv t) = some ⟨true, lapPoints (t + 1), "", 0⟩ ∧
    (lapPoints (t + 1)).head? = some (lapPath (t + 20)) ∧
    sampleFood ⟨24, 80⟩ (lapPoints (t + 1)) (lapEnv t).rands =
      some ({ foodX := (lapPath (t + 21)).x, foodY := (lapPath (t + 21)).y }, []) := by
  induction t using Nat.strong_induction_on with
  | _ t ih =>
    by_cases hsmall : t < 42
    · exact lap_step_small t hsmall
    · obtain ⟨u, rfl⟩ : ∃ u, t = u + 22 := ⟨t - 22, by omega⟩
      have hu : 20 ≤ u := by omega
      have h := ih u (by omega)
      have e19 : u + 22 + 19 = (u + 19) + 22 := by omega
      have e20 : u + 22 + 20 = (u + 20) + 22 := by omega
      have e21 : u + 22 + 21 = (u + 21) + 22 := by omega
      have e1 : u + 22 + 1 = (u + 1) + 22 := by omega
      rw [e19, e20, e21, e1, lapPath_add_period _ (by omega), lapPath_add_period _ (by omega),
        lapPath_add_period _ (by omega), lapPoints_add_period u hu,
        lapPoints_add_period (u + 1) (by omega), lapShape_add_period u hu,
        lapEnv_add_period u hu, lapKey_add_period u (by omega)]
      exact h

/-- Iteration `t` of the run leads from its state `t` to its state `t + 1`. -/
theorem lap_tick (t : Nat) : tick (lapState t) (lapEnv t) = some (lapState (t + 1)) := by
  obtain ⟨hin, hhead, hres, hcall, hnext, hsample⟩ := lap_step t
  cases hpts : lapPoints t with
  | nil => rw [hpts] at hhead; cases hhead
  | cons head rest =>
    rw [hpts] at hhead
    simp only [List.head?_cons, Option.some.injEq] at hhead
    rw [← hhead] at hin
    have hpoints : (lapState t).points = head :: rest := hpts
    have hcall2 : moveCall (lapState t) (lapEnv t) = some ⟨true, lapPoints (t + 1), "", 0⟩ :=
      hcall
    have hres2 : resolveInput (lapState t) (lapEnv t) = lapKey t := hres
    rw [tick_eating (lapState t) (lapEnv t) head rest _ _ _ hpoints hin hcall2 rfl hnext hsample,
      hres2]
    have hscore : (t % (UINT_MAX + 1) + 1) % (UINT_MAX + 1) = (t + 1) % (UINT_MAX + 1) := by
      simp only [UINT_MAX]; omega
    have e20 : t + 1 + 20 = t + 21 := by omega
    simp only [lapState, lapShape, hscore, e20, Nat.add_sub_cancel, Nat.succ_ne_zero, if_false,
      Nat.zero_lt_succ, decide_True]

/-- Every state of the run is reached by a run of `loop` from its initial state. -/
theorem lap_reachable (t : Nat) : Reachable (lapState t) := by
  induction t with
  | zero =>
    exact Reachable.start (List.replicate 20 ⟨0, 0⟩) ⟨24, 80⟩ ⟨24, 80⟩ [12, 41] ""
      (lapState 0) (by decide) (by decide)
  | succ t ih => exact Reachable.step (lapState t) (lapEnv t) (lapState (t + 1)) ih rfl (lap_tick t)

/-! ## The score: claim C6 -/

/-- The score of a run never exceeds `UINT_MAX`. -/
theorem Reachable.score_le (s : LoopState) (h : Reachable s) : s.score ≤ UINT_MAX := by
  induction h with
  | start points0 scrReset scrFood rands reason0 s _ hs =>
    unfold loopStart at hs
    simp only at hs
    split at hs
    · cases hs
    · cases hs; exact Nat.zero_le _
  | step s e s1 hreach _ ht ih =>
    have hsc := (tickBody_score s e e.rands s1 (Reachable.food_off_snake s hreach)
      (tick_some s e s1 ht).2).2
    rw [hsc]
    split
    · exact Nat.le_of_lt_succ (Nat.mod_lt _ (Nat.succ_pos _))
    · exact ih

/-- The loop body has a result when it moves the head onto the food and the `rand()` values
hold, as the pair of some round `k`, a cell that is on no segment of the moved snake. -/
theorem tick_defined_eating (s : LoopState) (e : TickEnv) (head : Point) (rest : List Point)
    (hp : s.points = head :: rest) (hin : isInBounds e.scrCheck head.y head.x = true)
    (heat : movedOntoFood s e = true) (hY : e.scrFood.maxY ≠ 0) (hX : e.scrFood.maxX ≠ 0)
    (k r1 r2 : Nat) (h1 : e.rands[2 * k]? = some r1) (h2 : e.rands[2 * k + 1]? = some r2)
    (hfree : ∀ r, moveCall s e = some r →
      isOverlapped { y := Int.tmod (r1 : Int) e.scrFood.maxY,
                     x := Int.tmod (r2 : Int) e.scrFood.maxX } r.points = false) :
    ∃ s1, tick s e = some s1 := by
  obtain ⟨r, hcall, hm, hfood⟩ := (movedOntoFood_iff s e).1 heat
  obtain ⟨⟨st1, rest1⟩, hs⟩ := sampleFood_returns e.scrFood r.points hY hX k e.rands r1 r2 h1 h2
    (hfree r hcall)
  exact ⟨_, tick_eating s e head rest r st1 rest1 hp hin hcall hm hfood hs⟩

/-- C6, as amended: from every state in which a run of `loop` evaluates its loop condition
the score is at most `UINT_MAX` = 4294967295, and an iteration adds exactly 1 to it in
`unsigned int` arithmetic when it called `moveSnake`, the call returned true and the new
head equals the food location: the score becomes `score + 1` while it is below `UINT_MAX`
and 0 from `UINT_MAX`. In every other iteration (failed move, rejected reversal, quit) the
score is unchanged, and the score goes down only by that wrap. With the head inside the
screen at the check of line 241, an iteration that does not eat always has a result, and
one that eats has a result as soon as the `rand()` values hold, as the pair of some round,
a cell that is on no segment of the moved snake. -/
theorem score_rises_by_one_modulo_on_eaten_food (s : LoopState) (e : TickEnv)
    (hr : Reachable s) :
    s.score ≤ UINT_MAX ∧
    (∀ s1, tick s e = some s1 →
      s1.score =
        (if movedOntoFood s e = true then (s.score + 1) % (UINT_MAX + 1) else s.score) ∧
      (movedOntoFood s e = true → s.score < UINT_MAX → s1.score = s.score + 1) ∧
      (movedOntoFood s e = true → s.score = UINT_MAX → s1.score = 0) ∧
      (movedOntoFood s e = false → s1.score = s.score) ∧
      (s1.score < s.score →
        movedOntoFood s e = true ∧ s.score = UINT_MAX ∧ s1.score = 0)) ∧
    (∀ head rest, s.points = head :: rest → isInBounds e.scrCheck head.y head.x = true →
      movedOntoFood s e = false → ∃ s1, tick s e = some s1) ∧
    (∀ head rest, s.points = head :: rest → isInBounds e.scrCheck head.y head.x = true →
      movedOntoFood s e = true → e.scrFood.maxY ≠ 0 → e.scrFood.maxX ≠ 0 →
      ∀ k r1 r2 : Nat, e.rands[2 * k]? = some r1 → e.rands[2 * k + 1]? = some r2 →
        (∀ r, moveCall s e = some r →
          isOverlapped { y := Int.tmod (r1 : Int) e.scrFood.maxY,
                         x := Int.tmod (r2 : Int) e.scrFood.maxX } r.points = false) →
        ∃ s1, tick s e = some s1) := by
  have hfood := Reachable.food_off_snake s hr
  have hle := Reachable.score_le s hr
  refine ⟨hle, ?_, ?_, ?_⟩
  · intro s1 ht
    have hsc := (tickBody_score s e e.rands s1 hfood (tick_some s e s1 ht).2).2
    simp only [UINT_MAX] at hle hsc ⊢
    refine ⟨hsc, ?_, ?_, ?_, ?_⟩
    · intro heat hlt
      rw [hsc, if_pos heat]; omega
    · intro heat heq
      rw [hsc, if_pos heat, heq]
    · intro hno
      rw [hsc, hno]; simp
    · intro hdown
      cases heat : movedOntoFood s e
      · rw [hsc, heat] at hdown; simp at hdown
      · rw [hsc, if_pos heat] at hdown
        refine ⟨rfl, ?_, ?_⟩
        · omega
        · rw [hsc, if_pos heat]; omega
  · intro head rest hp hin hno
    rw [tick_of_head_in s e head rest hp hin]
    exact tickBody_defined s e e.rands head rest hp hfood hno
  · intro head rest hp hin heat hY hX k r1 r2 h1 h2 hfree
    exact tick_defined_eating s e head rest hp hin heat hY hX k r1 r2 h1 h2 hfree

/-- C6 as amended, at the first iteration of a run on a 24 x 80 screen: the loop is entered
with the head at (12,40) and the food at (12,41); with no key pressed the snake moves right
onto the food, the pair (5,7) of `rand()` values gives the next food, and the score goes
from 0 to 1. -/
theorem score_rises_by_one_modulo_on_eaten_food_witness :
    ∃ s s1 : LoopState,
      loopStart (List.replicate 20 ⟨0, 0⟩) ⟨24, 80⟩ ⟨24, 80⟩ [12, 41] "" = some s ∧
      tick s ⟨⟨24, 80⟩, ⟨24, 80⟩, ⟨24, 80⟩, ERR, ⟨24, 80⟩, ⟨24, 80⟩, [5, 7]⟩ = some s1 ∧
      movedOntoFood s ⟨⟨24, 80⟩, ⟨24, 80⟩, ⟨24, 80⟩, ERR, ⟨24, 80⟩, ⟨24, 80⟩, [5, 7]⟩ = true ∧
      s.score = 0 ∧ s1.score = 0 + 1 :=
  have hstart : loopStart (List.replicate 20 ⟨0, 0⟩) ⟨24, 80⟩ ⟨24, 80⟩ [12, 41] "" =
      some (exampleStart) := by decide
  have htick : tick exampleStart
      ⟨⟨24, 80⟩, ⟨24, 80⟩, ⟨24, 80⟩, ERR, ⟨24, 80⟩, ⟨24, 80⟩, [5, 7]⟩ =
      some { exampleStart with
        points := ⟨12, 41⟩ :: exampleStart.points.dropLast, foodLocation := ⟨5, 7⟩,
        statics := ⟨7, 5⟩, moved := true, score := 1 } := by decide
  have heat : movedOntoFood exampleStart
      ⟨⟨24, 80⟩, ⟨24, 80⟩, ⟨24, 80⟩, ERR, ⟨24, 80⟩, ⟨24, 80⟩, [5, 7]⟩ = true := by decide
  ⟨_, _, hstart, htick, heat, rfl,
    ((score_rises_by_one_modulo_on_eaten_food exampleStart
      ⟨⟨24, 80⟩, ⟨24, 80⟩, ⟨24, 80⟩, ERR, ⟨24, 80⟩, ⟨24, 80⟩, [5, 7]⟩
      (Reachable.start _ _ _ _ _ _ (by decide) hstart)).2.1 _ htick).2.1 heat (by decide)⟩

/-- C6 fails as stated after 4294967295 eaten foods. On a 24 x 80 screen the snake can go
round a lap of 22 cells next to its start row for ever, the food appearing each time on the
cell in front of the head; every iteration of that run is a successful move onto the food.
The state after 4294967295 iterations is reached from the initial state and has score
4294967295 = `UINT_MAX`; the next iteration again moves the head onto the food, and
`score++` on the `unsigned int` leaves the score 0: not the old score plus 1, and less than
the old score. -/
theorem score_wraps_counterexample :
    ∃ (s : LoopState) (e : TickEnv) (s1 : LoopState),
      Reachable s ∧ s.flag = true ∧ tick s e = some s1 ∧ movedOntoFood s e = true ∧
      s.score = 4294967295 ∧ s1.score = 0 ∧ s1.score ≠ s.score + 1 ∧ s1.score < s.score := by
  refine ⟨lapState 4294967295, lapEnv 4294967295, lapState (4294967295 + 1),
    lap_reachable _, rfl, lap_tick _, ?_, by decide, by decide, by decide, by decide⟩
  rw [movedOntoFood_iff]
  obtain ⟨_, _, _, hcall, hnext, _⟩ := lap_step 4294967295
  exact ⟨_, hcall, rfl, hnext⟩

/-! ## The cell behind the head: claim C19 -/

/-- For two direction keys, the vector of the first is the reverse of the vector of the
second exactly when the first is the key the `switch` compares `direction` with in the
case of the second, its exact opposite. -/
theorem directionVector_reverse_iff (k d : Int)
    (hk : k = KEY_UP ∨ k = KEY_DOWN ∨ k = KEY_LEFT ∨ k = KEY_RIGHT)
    (hd : d = KEY_UP ∨ d = KEY_DOWN ∨ d = KEY_LEFT ∨ d = KEY_RIGHT) :
    ((directionVector k).1 = - (directionVector d).1 ∧
      (directionVector k).2 = - (directionVector d).2) ↔
    ((k = KEY_UP ∧ d = KEY_DOWN) ∨ (k = KEY_DOWN ∧ d = KEY_UP) ∨
      (k = KEY_LEFT ∧ d = KEY_RIGHT) ∨ (k = KEY_RIGHT ∧ d = KEY_LEFT)) := by
  rcases hk with h | h | h | h <;> rcases hd with h2 | h2 | h2 | h2 <;> subst h <;> subst h2 <;>
    decide

/-- On a snake of at least one segment and a direction key as resolved input, the iteration
makes no call of `moveSnake` exactly when the input is the exact opposite of the current
direction. -/
theorem moveCall_eq_none_iff (s : LoopState) (e : TickEnv) (hlen : 1 ≤ s.points.length)
    (hk : resolveInput s e = KEY_UP ∨ resolveInput s e = KEY_DOWN ∨
      resolveInput s e = KEY_LEFT ∨ resolveInput s e = KEY_RIGHT) :
    moveCall s e = none ↔
      ((resolveInput s e = KEY_UP ∧ s.direction = KEY_DOWN) ∨
        (resolveInput s e = KEY_DOWN ∧ s.direction = KEY_UP) ∨
        (resolveInput s e = KEY_LEFT ∧ s.direction = KEY_RIGHT) ∨
        (resolveInput s e = KEY_RIGHT ∧ s.direction = KEY_LEFT)) := by
  have hsome : ∀ dy dx : Int, moveSnake e.scrMove s.points dy dx s.gameOverReason ≠ none := by
    intro dy dx hn
    obtain ⟨r, hr⟩ := moveSnake_defined e.scrMove s.points dy dx s.gameOverReason hlen
    rw [hr] at hn; cases hn
  have hud : KEY_UP ≠ KEY_DOWN := by decide
  have hul : KEY_UP ≠ KEY_LEFT := by decide
  have hur : KEY_UP ≠ KEY_RIGHT := by decide
  have hdl : KEY_DOWN ≠ KEY_LEFT := by decide
  have hdr : KEY_DOWN ≠ KEY_RIGHT := by decide
  have hlr : KEY_LEFT ≠ KEY_RIGHT := by decide
  unfold moveCall
  simp only
  rcases hk with h | h | h | h
  · rw [h, if_pos rfl]
    by_cases hd : s.direction = KEY_DOWN
    · simp [hd]
    · simp [hd, hsome, hud, hul, hur]
  · rw [h, if_neg hud.symm, if_pos rfl]
    by_cases hd : s.direction = KEY_UP
    · simp [hd]
    · simp [hd, hsome, hud.symm, hdl, hdr]
  · rw [h, if_neg hul.symm, if_neg hdl.symm, if_pos rfl]
    by_cases hd : s.direction = KEY_RIGHT
    · simp [hd]
    · simp [hd, hsome, hul.symm, hdl.symm, hlr]
  · rw [h, if_neg hur.symm, if_neg hdr.symm, if_neg hlr.symm, if_pos rfl]
    by_cases hd : s.direction = KEY_LEFT
    · simp [hd]
    · simp [hd, hsome, hur.symm, hdr.symm, hlr.symm]

/-- C19: in every state in which a run of `loop` evaluates its loop condition with `flag`
true (the initial state, the state after a successful move, the state after a rejected
reversal; an iteration that takes the resize reset runs into the call of line 243 and
reaches no state), segment 1 is the cell one step against the current direction from the
head, `points[1] = points[0] - vector(direction)`. Hence the cell a move in the current
direction targets is not segment 1, for a direction key the target is segment 1 exactly
when the key is the exact opposite of the current direction, and the iteration makes no
call of `moveSnake` exactly when the resolved direction key targets segment 1. -/
theorem neck_is_one_step_behind_head (s : LoopState) (hr : Reachable s)
    (hflag : s.flag = true) :
    ∃ head neck : Point, s.points[0]? = some head ∧ s.points[1]? = some neck ∧
      neck = { y := head.y - (directionVector s.direction).1,
               x := head.x - (directionVector s.direction).2 } ∧
      ({ y := head.y + (directionVector s.direction).1,
         x := head.x + (directionVector s.direction).2 } : Point) ≠ neck ∧
      (∀ k : Int, (k = KEY_UP ∨ k = KEY_DOWN ∨ k = KEY_LEFT ∨ k = KEY_RIGHT) →
        (({ y := head.y + (directionVector k).1,
            x := head.x + (directionVector k).2 } : Point) = neck ↔
          ((k = KEY_UP ∧ s.direction = KEY_DOWN) ∨ (k = KEY_DOWN ∧ s.direction = KEY_UP) ∨
            (k = KEY_LEFT ∧ s.direction = KEY_RIGHT) ∨
            (k = KEY_RIGHT ∧ s.direction = KEY_LEFT)))) ∧
      (∀ e : TickEnv,
        (resolveInput s e = KEY_UP ∨ resolveInput s e = KEY_DOWN ∨
          resolveInput s e = KEY_LEFT ∨ resolveInput s e = KEY_RIGHT) →
        (moveCall s e = none ↔
          ({ y := head.y + (directionVector (resolveInput s e)).1,
             x := head.x + (directionVector (resolveInput s e)).2 } : Point) = neck)) := by
  obtain ⟨hlen, hdir, hneck⟩ := Reachable.invariants s hr
  obtain ⟨head, hhead, hsecond⟩ := hneck hflag
  have htarget : ∀ k : Int, (k = KEY_UP ∨ k = KEY_DOWN ∨ k = KEY_LEFT ∨ k = KEY_RIGHT) →
      (({ y := head.y + (directionVector k).1,
          x := head.x + (directionVector k).2 } : Point) =
        { y := head.y - (directionVector s.direction).1,
          x := head.x - (directionVector s.direction).2 } ↔
        ((k = KEY_UP ∧ s.direction = KEY_DOWN) ∨ (k = KEY_DOWN ∧ s.direction = KEY_UP) ∨
          (k = KEY_LEFT ∧ s.direction = KEY_RIGHT) ∨
          (k = KEY_RIGHT ∧ s.direction = KEY_LEFT))) := by
    intro k hk
    rw [← directionVector_reverse_iff k s.direction hk hdir]
    simp only [Point.mk.injEq]
    constructor
    · rintro ⟨h1, h2⟩; exact ⟨by omega, by omega⟩
    · rintro ⟨h1, h2⟩; exact ⟨by omega, by omega⟩
  refine ⟨head, _, hhead, hsecond, rfl, ?_, htarget, ?_⟩
  · intro heq
    have hopp := (htarget s.direction hdir).1 heq
    have hud : KEY_UP ≠ KEY_DOWN := by decide
    have hlr : KEY_LEFT ≠ KEY_RIGHT := by decide
    rcases hopp with ⟨h1, h2⟩ | ⟨h1, h2⟩ | ⟨h1, h2⟩ | ⟨h1, h2⟩
    · exact hud (h1.symm.trans h2)
    · exact hud (h2.symm.trans h1)
    · exact hlr (h1.symm.trans h2)
    · exact hlr (h2.symm.trans h1)
  · intro e hk
    rw [moveCall_eq_none_iff s e (by rw [hlen]; decide) hk]
    exact (htarget (resolveInput s e) hk).symm

/-- C19, at the state of a run on a 24 x 80 screen after a first iteration with the key
`KEY_UP`: the head is at (11,40), the direction is `KEY_UP` with vector (-1,0), and segment
1 is at (12,40), one step against the direction. -/
theorem neck_is_one_step_behind_head_witness :
    Reachable exampleUp ∧ exampleUp.flag = true ∧ exampleUp.direction = KEY_UP ∧
    directionVector KEY_UP = (-1, 0) ∧
    exampleUp.points[0]? = some ⟨11, 40⟩ ∧ exampleUp.points[1]? = some ⟨11 - (-1), 40 - 0⟩ ∧
    (∃ head neck : Point, exampleUp.points[0]? = some head ∧
      exampleUp.points[1]? = some neck ∧
      neck = { y := head.y - (directionVector exampleUp.direction).1,
               x := head.x - (directionVector exampleUp.direction).2 }) :=
  have hstart : loopStart (List.replicate 20 ⟨0, 0⟩) ⟨24, 80⟩ ⟨24, 80⟩ [12, 41] "" =
      some exampleStart := by decide
  have htick : tick exampleStart
      ⟨⟨24, 80⟩, ⟨24, 80⟩, ⟨24, 80⟩, KEY_UP, ⟨24, 80⟩, ⟨24, 80⟩, []⟩ = some exampleUp := by
    decide
  have hreach : Reachable exampleUp :=
    Reachable.step _ _ _ (Reachable.start _ _ _ _ _ _ (by decide) hstart) rfl htick
  have h := neck_is_one_step_behind_head exampleUp hreach rfl
  ⟨hreach, rfl, rfl, by decide, by decide, by decide,
    h.elim fun head hn => hn.elim fun neck hp => ⟨head, neck, hp.1, hp.2.1, hp.2.2.1⟩⟩

end Snake
